import Mathlib

/-!
# GAMEtg: the memory-matching game of `src/js/script.js`

A shallow embedding of the game script.  The single mutable object `gameState`
of the script, the part of the page it writes to, and the browser's timer table
are gathered in one record `GameState`; every function of the script becomes a
function from states to states.

Modelling decisions:

* JavaScript numbers that the script only increments from `0` (`moves`,
  `totalTime`) are natural numbers; a double is exact on them up to `2 ^ 53`.
* `undefined` is `none`: destructuring `[first, second] = gameState.flipped`
  yields `Option Nat`, and `gameState.cards[first]` yields `Option String`.
  Since `checkMatch` pushes `first` and `second` into `matched`, the entries
  of `matched` are `Option Nat`.
* `array.sort(() => Math.random() - 0.5)` returns some rearrangement of the
  array chosen by the engine and the random source; it is a parameter
  `Shuffle` of the two functions that call it.
* `setInterval` and `setTimeout` draw fresh handles from one counter; the
  running intervals are the list `intervals`, the calls of `setTimeout` are
  counted in `scheduledChecks`.  A callback that `setTimeout` was given runs
  later, as an event of its own.
-/

namespace GAMEtg

/-! ## Data -/

/-- Symbols of the 4x4 board (`script.js`, lines 2-5). -/
def emojis4x4 : List String :=
  ["🐶", "🐱", "🐭", "🐹",
   "🐰", "🦊", "🐻", "🐼"]

/-- Symbols of the 6x6 board (`script.js`, lines 7-13). -/
def emojis6x6 : List String :=
  ["🐶", "🐱", "🐭", "🐹",
   "🐰", "🦊", "🐻", "🐼",
   "🐨", "🐸", "🐙", "🦄",
   "🦋", "🐢", "🦎", "🦖",
   "🦕", "🦑"]

/-- One button created by `renderBoard` (`script.js`, lines 99-118). -/
structure CardView where
  index : Nat
  emoji : String
  isMatched : Bool
  isFlipped : Bool
  textContent : String
  deriving DecidableEq

/-- The object `gameState` (lines 16-26), the browser's timers, and the page
elements the script writes to (lines 29-39). -/
structure GameState where
  difficulty : Option Nat
  cards : List String
  flipped : List Nat
  matched : List (Option Nat)
  moves : Nat
  totalTime : Nat
  gameActive : Bool
  timerInterval : Option Nat
  emojis : List String
  /-- Handles of the intervals that are running. -/
  intervals : List Nat
  /-- Number of `checkMatch` callbacks that `cardClick` has given to `setTimeout`. -/
  scheduledChecks : Nat
  /-- Next handle that `setInterval` or `setTimeout` returns. -/
  nextHandle : Nat
  /-- Class `hidden` of `.welcome-screen`. -/
  welcomeHidden : Bool
  /-- Class `active` of `.game-screen`. -/
  gameScreenActive : Bool
  /-- Class `active` of `#completionPopup`. -/
  popupActive : Bool
  boardClass : String
  board : List CardView
  movesDisplay : String
  timerDisplay : String
  completionText : String
  deriving DecidableEq

/-- The state when the script has been loaded: the literal of lines 16-26 and
no timer.  What the page shows then comes from the HTML and is left free. -/
def IsInitial (s : GameState) : Prop :=
  s.difficulty = none ∧ s.cards = [] ∧ s.flipped = [] ∧ s.matched = [] ∧
  s.moves = 0 ∧ s.totalTime = 0 ∧ s.gameActive = false ∧
  s.timerInterval = none ∧ s.emojis = [] ∧
  s.intervals = [] ∧ s.scheduledChecks = 0

instance (s : GameState) : Decidable (IsInitial s) := by
  unfold IsInitial; infer_instance

/-- A loaded page whose text nodes are empty. -/
def pageLoad : GameState where
  difficulty := none
  cards := []
  flipped := []
  matched := []
  moves := 0
  totalTime := 0
  gameActive := false
  timerInterval := none
  emojis := []
  intervals := []
  scheduledChecks := 0
  nextHandle := 1
  welcomeHidden := false
  gameScreenActive := false
  popupActive := false
  boardClass := ""
  board := []
  movesDisplay := ""
  timerDisplay := ""
  completionText := ""

/-- The result of `array.sort(() => Math.random() - 0.5)`: a rearrangement of
the array. -/
structure Shuffle where
  run : List String → List String
  perm : ∀ l, List.Perm (run l) l

/-- The shuffle that leaves every array as it is. -/
def Shuffle.id : Shuffle := ⟨fun l => l, fun l => List.Perm.refl l⟩

/-- The shuffle that reverses every array. -/
def Shuffle.rev : Shuffle := ⟨List.reverse, List.reverse_perm⟩

/-! ## Text -/

/-- `String.prototype.padStart(maxLength, fillString)`: the filler is repeated
and cut to the missing length. -/
def padStart (s : String) (maxLength : Nat) (fillString : String) : String :=
  if maxLength ≤ s.length then s
  else if fillString.length = 0 then s
  else
    let fillLen := maxLength - s.length
    String.mk ((List.replicate fillLen fillString.data).flatten.take fillLen) ++ s

/-- The template of lines 176-179 and of lines 197-199:
`String(minutes).padStart(2, '0')`, a colon, `String(seconds).padStart(2, '0')`
with `minutes = Math.floor(totalTime / 60)` and `seconds = totalTime % 60`. -/
def timeString (totalTime : Nat) : String :=
  let minutes := totalTime / 60
  let seconds := totalTime % 60
  padStart (Nat.repr minutes) 2 "0" ++ ":" ++ padStart (Nat.repr seconds) 2 "0"

/-- Text of `gameState.difficulty` inside a template literal. -/
def difficultyText : Option Nat → String
  | none => "null"
  | some d => Nat.repr d

/-! ## The functions of the script -/

/-- Lines 94-120. -/
def renderBoard (s : GameState) : GameState :=
  { s with
    boardClass := "game-board grid-" ++ difficultyText s.difficulty ++ "x" ++
      difficultyText s.difficulty
    board := s.cards.enum.map fun p =>
      { index := p.1
        emoji := p.2
        isMatched := decide (some p.1 ∈ s.matched)
        isFlipped := decide (p.1 ∈ s.flipped)
        textContent := if p.1 ∈ s.flipped then p.2 else "" } }

/-- Lines 172-181, without the callback: `setInterval` registers a new interval. -/
def startTimer (s : GameState) : GameState :=
  { s with
    totalTime := 0
    timerInterval := some s.nextHandle
    intervals := s.intervals ++ [s.nextHandle]
    nextHandle := s.nextHandle + 1 }

/-- The callback given to `setInterval` (lines 174-180). -/
def timerCallback (s : GameState) : GameState :=
  { s with
    totalTime := s.totalTime + 1
    timerDisplay := timeString (s.totalTime + 1) }

/-- The browser's `clearInterval`: a handle that is not running is ignored. -/
def clearInterval (handle : Option Nat) (s : GameState) : GameState :=
  match handle with
  | none => s
  | some h => { s with intervals := s.intervals.filter fun k => k != h }

/-- Lines 186-188. -/
def stopTimer (s : GameState) : GameState :=
  clearInterval s.timerInterval s

/-- Lines 56-89. -/
def startGame (sh : Shuffle) (difficulty : Nat) (s : GameState) : GameState :=
  let s := { s with
    difficulty := some difficulty
    cards := []
    flipped := []
    matched := []
    moves := 0
    totalTime := 0
    gameActive := true }
  let s := { s with emojis := if difficulty = 4 then emojis4x4 else emojis6x6 }
  let pairs := s.emojis
  let s := { s with cards := sh.run (pairs ++ pairs) }
  let s := { s with welcomeHidden := true, gameScreenActive := true }
  let s := renderBoard s
  let s := { s with movesDisplay := "0", timerDisplay := "00:00" }
  startTimer s

/-- Lines 193-205. -/
def endGame (s : GameState) : GameState :=
  let s := { s with gameActive := false }
  let s := stopTimer s
  let tstr := timeString s.totalTime
  { s with
    completionText :=
      "Ты справился(лась) за " ++ Nat.repr s.moves ++ " ходов и " ++ tstr ++ "!"
    popupActive := true }

/-- Lines 125-146. -/
def cardClick (index : Nat) (s : GameState) : GameState :=
  if s.gameActive = false then s
  else if index ∈ s.flipped then s
  else if some index ∈ s.matched then s
  else if s.flipped.length ≥ 2 then s
  else
    let s := { s with flipped := s.flipped ++ [index] }
    let s := renderBoard s
    if s.flipped.length = 2 then
      { s with
        gameActive := false
        moves := s.moves + 1
        movesDisplay := Nat.repr (s.moves + 1)
        scheduledChecks := s.scheduledChecks + 1
        nextHandle := s.nextHandle + 1 }
    else s

/-- The value of `gameState.cards[i]`; `undefined` when `i` is `undefined` or
not a position of the array. -/
def cardAt (cards : List String) (i : Option Nat) : Option String :=
  i.bind fun k => cards[k]?

/-- Lines 152-161 of `checkMatch`: everything before the completion test. -/
def resolveFlipped (s : GameState) : GameState :=
  let first := s.flipped[0]?
  let second := s.flipped[1]?
  let isMatch := cardAt s.cards first = cardAt s.cards second
  let s := if isMatch then { s with matched := s.matched ++ [first, second] } else s
  let s := { s with flipped := [], gameActive := true }
  renderBoard s

/-- Lines 151-167. -/
def checkMatch (s : GameState) : GameState :=
  let s := resolveFlipped s
  if s.matched.length = s.cards.length then endGame s else s

/-- Lines 210-226. -/
def restartGame (sh : Shuffle) (s : GameState) : GameState :=
  let s := { s with
    popupActive := false
    flipped := []
    matched := []
    moves := 0
    totalTime := 0
    gameActive := true }
  let s := { s with cards := sh.run s.cards }
  let s := { s with movesDisplay := "0", timerDisplay := "00:00" }
  let s := renderBoard s
  startTimer s

/-- Lines 231-237. -/
def returnToMenu (s : GameState) : GameState :=
  let s := { s with
    popupActive := false
    gameScreenActive := false
    welcomeHidden := false
    gameActive := false }
  stopTimer s

/-! ## Events -/

/-- What can happen to the page: a button is pressed, a scheduled callback runs. -/
inductive Event where
  | startGame (sh : Shuffle) (difficulty : Nat)
  | cardClick (index : Nat)
  | checkMatch
  | restartGame (sh : Shuffle)
  | returnToMenu
  | tick

/-- One event.  `checkMatch` is a run of the callback that `cardClick` gave to
`setTimeout`; `tick` is one run of the callback of a running interval. -/
def step (s : GameState) : Event → GameState
  | .startGame sh d => startGame sh d s
  | .cardClick i => cardClick i s
  | .checkMatch => checkMatch s
  | .restartGame sh => restartGame sh s
  | .returnToMenu => returnToMenu s
  | .tick => if s.intervals = [] then s else timerCallback s

/-- A sequence of events, the first of the list first. -/
def run (s : GameState) (evs : List Event) : GameState :=
  evs.foldl step s

/-- One second passes: the callback of every running interval runs once. -/
def elapseSecond (s : GameState) : GameState :=
  s.intervals.foldl (fun st _ => timerCallback st) s

/-! ## Properties of states -/

/-- The bound on `flipped`: at most two indices, all different, none of them matched. -/
def FlipInv (s : GameState) : Prop :=
  s.flipped.length ≤ 2 ∧ s.flipped.Nodup ∧ ∀ i ∈ s.flipped, some i ∉ s.matched

/-- The shape of `matched`: an even number of entries, no entry twice, every
entry a position of the deck, and the entries at `2 * k` and `2 * k + 1` two
different positions that carry the same symbol. -/
def MatchedInv (s : GameState) : Prop :=
  Even s.matched.length ∧ s.matched.Nodup ∧
  (∀ m ∈ s.matched, ∃ i, m = some i ∧ i < s.cards.length) ∧
  ∀ k, 2 * k + 1 < s.matched.length →
    ∃ i j, s.matched[2 * k]? = some (some i) ∧ s.matched[2 * k + 1]? = some (some j) ∧
      i ≠ j ∧ ∃ (hi : i < s.cards.length) (hj : j < s.cards.length), s.cards[i] = s.cards[j]

/-- Every position of the deck is in `matched`. -/
def AllMatched (s : GameState) : Prop :=
  ∀ i, i < s.cards.length → some i ∈ s.matched

/-- What a session keeps true: the bound on `flipped`, flipped indices that are
positions of the deck, and the shape of `matched`. -/
def SessInv (s : GameState) : Prop :=
  FlipInv s ∧ (∀ i ∈ s.flipped, i < s.cards.length) ∧ MatchedInv s

/-- States of a game in progress: `startGame` from any state, then clicks on
cards of the board, `checkMatch` when two cards are face up, and timer ticks. -/
inductive Play : GameState → Prop
  | start (sh : Shuffle) (d : Nat) (s0 : GameState) : Play (step s0 (.startGame sh d))
  | click {s : GameState} (index : Nat) :
      Play s → index < s.cards.length → Play (step s (.cardClick index))
  | check {s : GameState} : Play s → s.flipped.length = 2 → Play (step s .checkMatch)
  | tick {s : GameState} : Play s → Play (step s .tick)

/-- States of a session: as `Play`, and `restartGame` and `returnToMenu` at any time. -/
inductive Session : GameState → Prop
  | start (sh : Shuffle) (d : Nat) (s0 : GameState) : Session (step s0 (.startGame sh d))
  | click {s : GameState} (index : Nat) :
      Session s → index < s.cards.length → Session (step s (.cardClick index))
  | check {s : GameState} : Session s → s.flipped.length = 2 → Session (step s .checkMatch)
  | tick {s : GameState} : Session s → Session (step s .tick)
  | restart {s : GameState} (sh : Shuffle) : Session s → Session (step s (.restartGame sh))
  | menu {s : GameState} : Session s → Session (step s .returnToMenu)

/-! ## Strings of the specification -/

/-- Written from the sentence of the specification: a decimal numeral padded on the left with
the digit zero to at least `width` characters. -/
def zeroPadded (width : Nat) (numeral : String) : String :=
  String.mk (List.replicate (width - numeral.length) '0') ++ numeral

/-- Written from the sentence of the specification: minutes `floor (s / 60)` and seconds
`s mod 60`, each zero-padded to two characters, with a colon between; minutes are not
reduced modulo 60. -/
def minutesSeconds (s : Nat) : String :=
  zeroPadded 2 (Nat.repr (s / 60)) ++ ":" ++ zeroPadded 2 (Nat.repr (s % 60))

/-! ## Concrete sessions -/

/-- The 4x4 game started from `pageLoad` when the shuffle leaves the deck in the
order `emojis4x4 ++ emojis4x4`: position `k` and position `k + 8` carry the
same symbol. -/
def demoStart : GameState := step pageLoad (.startGame Shuffle.id 4)

/-- Cards 0 and 8 of `demoStart` are face up and wait for `checkMatch`. -/
def demoTwoFlipped : GameState := step (step demoStart (.cardClick 0)) (.cardClick 8)

/-- The first pair of `demoStart` has been resolved. -/
def demoOnePair : GameState := step demoTwoFlipped .checkMatch

/-- The player turns card `k` and card `k + 8` and the resolution runs, for
every `k` of the list. -/
def matchPairs (ks : List Nat) : List Event :=
  ks.flatMap fun k => [Event.cardClick k, Event.cardClick (k + 8), Event.checkMatch]

/-- Button presses that leave two intervals running.  The player starts a 4x4
game, finds seven pairs, turns the last two cards and presses "back" before
the resolution runs; the resolution completes the game and opens the popup
over the menu; the player presses "play again" (`restartGame` starts a timer)
and then a difficulty button (`startGame` starts another). -/
def leakTrace : List Event :=
  [Event.startGame Shuffle.id 4] ++ matchPairs (List.range 7) ++
  [Event.cardClick 7, Event.cardClick 15, Event.returnToMenu, Event.checkMatch,
    Event.restartGame Shuffle.id, Event.startGame Shuffle.id 4]

/-- After `leakTrace` the player finds all eight pairs of the new game. -/
def leakThenComplete : List Event := leakTrace ++ matchPairs (List.range 8)

/-! ## Further properties and sessions -/

/-- While two cards are face up the board is locked. -/
def LockInv (s : GameState) : Prop :=
  s.flipped.length = 2 → s.gameActive = false

/-- Written from the sentence of the specification: the resolution compares the
two flipped symbols, and the completion condition is checked only immediately
after a successful match. -/
def checkMatchSpec (s : GameState) : GameState :=
  let first := s.flipped[0]?
  let second := s.flipped[1]?
  if cardAt s.cards first = cardAt s.cards second then
    let s := renderBoard { s with
      matched := s.matched ++ [first, second]
      flipped := []
      gameActive := true }
    if s.matched.length = s.cards.length then endGame s else s
  else
    renderBoard { s with flipped := [], gameActive := true }

/-- The interval of the session is running, or the game is over. -/
def TimerInv (s : GameState) : Prop :=
  (s.gameActive = false ∧ s.flipped = []) ∨
  ∃ h, s.timerInterval = some h ∧ h ∈ s.intervals

/-- The player turns the two cards of every pair of the list, and each time the
resolution runs. -/
def flipPairs (ps : List (Nat × Nat)) : List Event :=
  ps.flatMap fun p => [Event.cardClick p.1, Event.cardClick p.2, Event.checkMatch]

/-- The positions of the pairs in the order in which they are turned. -/
def pairIndices (ps : List (Nat × Nat)) : List Nat :=
  ps.flatMap fun p => [p.1, p.2]

/-- Every pair of the list is made of two positions of the deck that carry the
same symbol. -/
def MatchingPairs (cards : List String) (ps : List (Nat × Nat)) : Prop :=
  ∀ p ∈ ps, p.1 < cards.length ∧ p.2 < cards.length ∧ cards[p.1]? = cards[p.2]?

/-- Every entry of `matched`, and the pair that is face up, has been paid for
by a move. -/
def MovesInv (s : GameState) : Prop :=
  s.matched.length + (if s.flipped.length = 2 then 2 else 0) ≤ 2 * s.moves

/-- The deck has 16 cards when the difficulty is 4, and 36 otherwise. -/
def DeckInv (s : GameState) : Prop :=
  (s.difficulty = some 4 ∧ s.cards.length = 16) ∨
  (s.difficulty ≠ some 4 ∧ s.cards.length = 36)

/-- Cards 0 and 1 of `demoStart`, which carry different symbols, are face up. -/
def demoMismatch : GameState := step (step demoStart (.cardClick 0)) (.cardClick 1)

/-- The eight matching pairs of `demoStart`. -/
def demoPairs : List (Nat × Nat) := (List.range 8).map fun k => (k, k + 8)

/-- Clicks on cards (`some index`) and timer ticks (`none`), in any order. -/
def quietEvents (ks : List (Option Nat)) : List Event :=
  ks.map fun k =>
    match k with
    | none => Event.tick
    | some index => Event.cardClick index

/-- The player starts a 4x4 game, turns cards 0 and 1, which differ, and
presses "back" before the resolution runs. -/
def menuMidResolution : List Event :=
  [Event.startGame Shuffle.id 4, Event.cardClick 0, Event.cardClick 1, Event.returnToMenu]

/-- The player starts a 4x4 game, finds seven pairs, turns the last two cards
and presses "back" before the resolution runs. -/
def menuBeforeLastPair : List Event :=
  [Event.startGame Shuffle.id 4] ++ matchPairs (List.range 7) ++
  [Event.cardClick 7, Event.cardClick 15, Event.returnToMenu]

/-- The player starts a 4x4 game, turns cards 0 and 1, presses "back" and then
a difficulty button, all before the resolution of cards 0 and 1 runs. -/
def newGameMidResolution : List Event :=
  [Event.startGame Shuffle.id 4, Event.cardClick 0, Event.cardClick 1, Event.returnToMenu,
    Event.startGame Shuffle.id 4]

/-! ## Reading a formatted time -/

/-- The number that a list of decimal digits writes. -/
def digitsValue (cs : List Char) : Nat :=
  cs.foldl (fun acc c => 10 * acc + (c.toNat - 48)) 0

/-- The part of a text before its first colon. -/
def beforeColon (str : String) : String :=
  String.mk (str.data.takeWhile fun c => c != ':')

/-- The part of a text after its first colon. -/
def afterColon (str : String) : String :=
  String.mk ((str.data.dropWhile fun c => c != ':').drop 1)

/-- Every character of the text is one of `0` to `9`. -/
def AllDigits (str : String) : Prop :=
  ∀ c ∈ str.data, c.isDigit = true

/-! ## Field lemmas -/

section fields
variable (s : GameState)

@[simp]
theorem renderBoard_cards : (renderBoard s).cards = s.cards := rfl
@[simp]
theorem renderBoard_flipped : (renderBoard s).flipped = s.flipped := rfl
@[simp]
theorem renderBoard_matched : (renderBoard s).matched = s.matched := rfl
@[simp]
theorem renderBoard_moves : (renderBoard s).moves = s.moves := rfl
@[simp]
theorem renderBoard_totalTime : (renderBoard s).totalTime = s.totalTime := rfl
@[simp]
theorem renderBoard_gameActive : (renderBoard s).gameActive = s.gameActive := rfl
@[simp]
theorem renderBoard_intervals : (renderBoard s).intervals = s.intervals := rfl
@[simp]
theorem renderBoard_timerInterval : (renderBoard s).timerInterval = s.timerInterval := rfl

@[simp]
theorem clearInterval_cards (h : Option Nat) : (clearInterval h s).cards = s.cards := by
  cases h <;> rfl
@[simp]
theorem clearInterval_flipped (h : Option Nat) :
    (clearInterval h s).flipped = s.flipped := by cases h <;> rfl
@[simp]
theorem clearInterval_matched (h : Option Nat) :
    (clearInterval h s).matched = s.matched := by cases h <;> rfl
@[simp]
theorem clearInterval_moves (h : Option Nat) : (clearInterval h s).moves = s.moves := by
  cases h <;> rfl
@[simp]
theorem clearInterval_totalTime (h : Option Nat) :
    (clearInterval h s).totalTime = s.totalTime := by cases h <;> rfl
@[simp]
theorem clearInterval_gameActive (h : Option Nat) :
    (clearInterval h s).gameActive = s.gameActive := by cases h <;> rfl
@[simp]
theorem clearInterval_timerInterval (h : Option Nat) :
    (clearInterval h s).timerInterval = s.timerInterval := by cases h <;> rfl

@[simp]
theorem endGame_cards : (endGame s).cards = s.cards := by simp [endGame, stopTimer]
@[simp]
theorem endGame_flipped : (endGame s).flipped = s.flipped := by simp [endGame, stopTimer]
@[simp]
theorem endGame_matched : (endGame s).matched = s.matched := by simp [endGame, stopTimer]
@[simp]
theorem endGame_moves : (endGame s).moves = s.moves := by simp [endGame, stopTimer]
@[simp]
theorem endGame_totalTime : (endGame s).totalTime = s.totalTime := by
  simp [endGame, stopTimer]
@[simp]
theorem endGame_gameActive : (endGame s).gameActive = false := by
  simp [endGame, stopTimer]

@[simp]
theorem resolveFlipped_cards : (resolveFlipped s).cards = s.cards := by
  unfold resolveFlipped; simp only []; split <;> rfl
@[simp]
theorem resolveFlipped_flipped : (resolveFlipped s).flipped = [] := by
  unfold resolveFlipped; simp only []; split <;> rfl
@[simp]
theorem resolveFlipped_moves : (resolveFlipped s).moves = s.moves := by
  unfold resolveFlipped; simp only []; split <;> rfl
@[simp]
theorem resolveFlipped_totalTime : (resolveFlipped s).totalTime = s.totalTime := by
  unfold resolveFlipped; simp only []; split <;> rfl
@[simp]
theorem resolveFlipped_gameActive : (resolveFlipped s).gameActive = true := by
  unfold resolveFlipped; simp only []; split <;> rfl
theorem resolveFlipped_matched :
    (resolveFlipped s).matched =
      if cardAt s.cards s.flipped[0]? = cardAt s.cards s.flipped[1]? then
        s.matched ++ [s.flipped[0]?, s.flipped[1]?]
      else s.matched := by
  unfold resolveFlipped; simp only []; split <;> rfl

@[simp]
theorem checkMatch_cards : (checkMatch s).cards = s.cards := by
  unfold checkMatch; simp only []; split <;> simp
@[simp]
theorem checkMatch_flipped : (checkMatch s).flipped = [] := by
  unfold checkMatch; simp only []; split <;> simp
@[simp]
theorem checkMatch_moves : (checkMatch s).moves = s.moves := by
  unfold checkMatch; simp only []; split <;> simp
@[simp]
theorem checkMatch_totalTime : (checkMatch s).totalTime = s.totalTime := by
  unfold checkMatch; simp only []; split <;> simp
@[simp]
theorem checkMatch_matched : (checkMatch s).matched = (resolveFlipped s).matched := by
  unfold checkMatch; simp only []; split <;> simp

end fields

/-! ## `startGame` -/

theorem startGame_cards (sh : Shuffle) (d : Nat) (s : GameState) :
    (startGame sh d s).cards =
      sh.run ((if d = 4 then emojis4x4 else emojis6x6) ++
        (if d = 4 then emojis4x4 else emojis6x6)) := by
  simp [startGame, startTimer, renderBoard]

theorem startGame_fields (sh : Shuffle) (d : Nat) (s : GameState) :
    (startGame sh d s).flipped = [] ∧ (startGame sh d s).matched = [] ∧
    (startGame sh d s).moves = 0 ∧ (startGame sh d s).totalTime = 0 ∧
    (startGame sh d s).gameActive = true := by
  simp [startGame, startTimer, renderBoard]

/-- C1: whatever the state before and whatever rearrangement the shuffle
returns, `startGame(4)` leaves a deck of 16 cards in which each of the 8
symbols of `emojis4x4` occurs exactly twice and no other symbol occurs,
`startGame(6)` leaves a deck of 36 cards in which each of the 18 symbols of
`emojis6x6` occurs exactly twice and no other symbol occurs, and in both cases
`flipped` and `matched` are empty, `moves` and `totalTime` are 0 and
`gameActive` is true. -/
theorem startGame_deck (sh : Shuffle) (s : GameState) :
    ((startGame sh 4 s).cards.length = 16 ∧
      emojis4x4.length = 8 ∧ emojis4x4.Nodup ∧
      (∀ e ∈ emojis4x4, (startGame sh 4 s).cards.count e = 2) ∧
      (∀ e ∈ (startGame sh 4 s).cards, e ∈ emojis4x4) ∧
      (startGame sh 4 s).flipped = [] ∧ (startGame sh 4 s).matched = [] ∧
      (startGame sh 4 s).moves = 0 ∧ (startGame sh 4 s).totalTime = 0 ∧
      (startGame sh 4 s).gameActive = true) ∧
    ((startGame sh 6 s).cards.length = 36 ∧
      emojis6x6.length = 18 ∧ emojis6x6.Nodup ∧
      (∀ e ∈ emojis6x6, (startGame sh 6 s).cards.count e = 2) ∧
      (∀ e ∈ (startGame sh 6 s).cards, e ∈ emojis6x6) ∧
      (startGame sh 6 s).flipped = [] ∧ (startGame sh 6 s).matched = [] ∧
      (startGame sh 6 s).moves = 0 ∧ (startGame sh 6 s).totalTime = 0 ∧
      (startGame sh 6 s).gameActive = true) := by
  refine ⟨⟨?_, by decide, by decide, ?_, ?_, startGame_fields sh 4 s⟩,
    ⟨?_, by decide, by decide, ?_, ?_, startGame_fields sh 6 s⟩⟩
  · rw [startGame_cards, (sh.perm _).length_eq]; decide
  · intro e he
    rw [startGame_cards, (sh.perm _).count_eq]
    revert e; decide
  · intro e he
    rw [startGame_cards, (sh.perm _).mem_iff] at he
    simpa using he
  · rw [startGame_cards, (sh.perm _).length_eq]; decide
  · intro e he
    rw [startGame_cards, (sh.perm _).count_eq]
    revert e; decide
  · intro e he
    rw [startGame_cards, (sh.perm _).mem_iff] at he
    simpa using he

/-! ## `cardClick` -/

theorem cardClick_rejected (s : GameState) (index : Nat)
    (h : s.gameActive = false ∨ index ∈ s.flipped ∨ some index ∈ s.matched ∨
      2 ≤ s.flipped.length) : cardClick index s = s := by
  rcases h with h | h | h | h <;> simp [cardClick, h]

theorem cardClick_accepted (s : GameState) (index : Nat)
    (h1 : s.gameActive = true) (h2 : index ∉ s.flipped) (h3 : some index ∉ s.matched)
    (h4 : s.flipped.length < 2) :
    cardClick index s =
      if s.flipped.length = 1 then
        { renderBoard { s with flipped := s.flipped ++ [index] } with
          gameActive := false
          moves := s.moves + 1
          movesDisplay := Nat.repr (s.moves + 1)
          scheduledChecks := s.scheduledChecks + 1
          nextHandle := s.nextHandle + 1 }
      else renderBoard { s with flipped := s.flipped ++ [index] } := by
  unfold cardClick
  rw [if_neg (by simp [h1]), if_neg h2, if_neg h3, if_neg (by omega)]
  simp [renderBoard]

/-- Either the click is ignored, or it is accepted and the index is appended. -/
theorem cardClick_cases (s : GameState) (index : Nat) :
    cardClick index s = s ∨
    (s.gameActive = true ∧ index ∉ s.flipped ∧ some index ∉ s.matched ∧ s.flipped.length < 2 ∧
      (cardClick index s).flipped = s.flipped ++ [index] ∧
      (cardClick index s).matched = s.matched ∧
      (cardClick index s).cards = s.cards ∧
      (cardClick index s).totalTime = s.totalTime ∧
      (cardClick index s).intervals = s.intervals ∧
      (cardClick index s).timerInterval = s.timerInterval ∧
      (cardClick index s).moves = (if s.flipped.length = 1 then s.moves + 1 else s.moves) ∧
      (cardClick index s).gameActive = (if s.flipped.length = 1 then false else true)) := by
  by_cases h : s.gameActive = false ∨ index ∈ s.flipped ∨ some index ∈ s.matched ∨
      2 ≤ s.flipped.length
  · exact Or.inl (cardClick_rejected s index h)
  · right
    simp only [not_or] at h
    obtain ⟨h1, h2, h3, h4⟩ := h
    have h1 : s.gameActive = true := by simpa using h1
    have h4 : s.flipped.length < 2 := by omega
    rw [cardClick_accepted s index h1 h2 h3 h4]
    refine ⟨h1, h2, h3, h4, ?_⟩
    split <;> simp [h1]

/-- C2: in a state whose `flipped` holds at most two indices, `cardClick(index)`
returns the state unchanged, every field of it, when `gameActive` is false, or
`index` is in `flipped`, or `index` is in `matched`, or `flipped` holds two
indices; when none of these holds it appends `index` to `flipped` and leaves
`cards`, `matched` and `totalTime` as they were. -/
theorem cardClick_guard (s : GameState) (index : Nat) (hlen : s.flipped.length ≤ 2) :
    ((s.gameActive = false ∨ index ∈ s.flipped ∨ some index ∈ s.matched ∨
        s.flipped.length = 2) → cardClick index s = s) ∧
    (¬ (s.gameActive = false ∨ index ∈ s.flipped ∨ some index ∈ s.matched ∨
        s.flipped.length = 2) →
      (cardClick index s).flipped = s.flipped ++ [index] ∧
      (cardClick index s).cards = s.cards ∧
      (cardClick index s).matched = s.matched ∧
      (cardClick index s).totalTime = s.totalTime) := by
  constructor
  · intro h
    apply cardClick_rejected
    rcases h with h | h | h | h
    · exact Or.inl h
    · exact Or.inr (Or.inl h)
    · exact Or.inr (Or.inr (Or.inl h))
    · exact Or.inr (Or.inr (Or.inr (le_of_eq h.symm)))
  · intro h
    simp only [not_or] at h
    obtain ⟨h1, h2, h3, h4⟩ := h
    rw [cardClick_accepted s index (by simpa using h1) h2 h3 (by omega)]
    split <;> simp [renderBoard]

/-! ## The bound on `flipped` -/

@[simp]
theorem startTimer_flipped (s : GameState) : (startTimer s).flipped = s.flipped := rfl
@[simp]
theorem startTimer_matched (s : GameState) : (startTimer s).matched = s.matched := rfl
@[simp]
theorem startTimer_cards (s : GameState) : (startTimer s).cards = s.cards := rfl

theorem restartGame_fields (sh : Shuffle) (s : GameState) :
    (restartGame sh s).flipped = [] ∧ (restartGame sh s).matched = [] ∧
    (restartGame sh s).moves = 0 ∧ (restartGame sh s).totalTime = 0 ∧
    (restartGame sh s).gameActive = true ∧ (restartGame sh s).cards = sh.run s.cards := by
  simp [restartGame, startTimer, renderBoard]

theorem returnToMenu_fields (s : GameState) :
    (returnToMenu s).flipped = s.flipped ∧ (returnToMenu s).matched = s.matched ∧
    (returnToMenu s).moves = s.moves ∧ (returnToMenu s).totalTime = s.totalTime ∧
    (returnToMenu s).gameActive = false ∧ (returnToMenu s).cards = s.cards := by
  simp [returnToMenu, stopTimer]

theorem FlipInv_of_nil {s : GameState} (h : s.flipped = []) : FlipInv s := by
  simp [FlipInv, h]

theorem FlipInv_cardClick {s : GameState} (index : Nat) (h : FlipInv s) :
    FlipInv (cardClick index s) := by
  rcases cardClick_cases s index with e | ⟨-, h2, h3, h4, e1, e2, -⟩
  · rw [e]; exact h
  · obtain ⟨-, hn, hd⟩ := h
    refine ⟨?_, ?_, ?_⟩
    · rw [e1, List.length_append]; simp; omega
    · rw [e1]
      exact List.Nodup.append hn (List.nodup_singleton _) (by simpa using h2)
    · intro i hi
      rw [e1] at hi
      rw [e2]
      rcases List.mem_append.1 hi with hi | hi
      · exact hd i hi
      · rw [List.mem_singleton.1 hi]; exact h3

theorem FlipInv_step {s : GameState} (e : Event) (h : FlipInv s) : FlipInv (step s e) := by
  cases e with
  | startGame sh d => exact FlipInv_of_nil (startGame_fields sh d s).1
  | cardClick i => exact FlipInv_cardClick i h
  | checkMatch => exact FlipInv_of_nil (checkMatch_flipped _)
  | restartGame sh => exact FlipInv_of_nil (restartGame_fields sh s).1
  | returnToMenu =>
    have hf := returnToMenu_fields s
    simp only [step, FlipInv, hf.1, hf.2.1]
    exact h
  | tick =>
    simp only [step]
    split
    · exact h
    · exact h

theorem FlipInv_run (evs : List Event) : ∀ {s : GameState}, FlipInv s → FlipInv (run s evs) := by
  induction evs with
  | nil => intro s h; exact h
  | cons e evs ih => intro s h; exact ih (FlipInv_step e h)

/-- C4: in every state reached from the loaded page by any sequence of
`startGame`, `cardClick` with any index, `checkMatch` at any time,
`restartGame`, `returnToMenu` and timer ticks, `flipped` holds at most two
indices, holds none twice, and holds none that is in `matched`. -/
theorem flipped_bound (s0 : GameState) (h0 : IsInitial s0) (evs : List Event) :
    (run s0 evs).flipped.length ≤ 2 ∧ (run s0 evs).flipped.Nodup ∧
    ∀ i ∈ (run s0 evs).flipped, some i ∉ (run s0 evs).matched :=
  FlipInv_run evs (FlipInv_of_nil h0.2.2.1)


/-! ## The shape of `matched` -/

theorem MatchedInv_of_nil {s : GameState} (h : s.matched = []) : MatchedInv s := by
  simp [MatchedInv, h]

theorem MatchedInv_congr {s t : GameState} (hm : t.matched = s.matched) (hc : t.cards = s.cards)
    (h : MatchedInv s) : MatchedInv t := by
  unfold MatchedInv at *
  simp only [hm, hc]
  exact h

theorem SessInv_congr {s t : GameState} (hf : t.flipped = s.flipped) (hm : t.matched = s.matched)
    (hc : t.cards = s.cards) (h : SessInv s) : SessInv t := by
  obtain ⟨h1, h2, h3⟩ := h
  refine ⟨?_, ?_, MatchedInv_congr hm hc h3⟩
  · unfold FlipInv at *; rw [hf, hm]; exact h1
  · rw [hf, hc]; exact h2

theorem SessInv_of_nil {s : GameState} (hf : s.flipped = []) (hm : s.matched = []) :
    SessInv s :=
  ⟨FlipInv_of_nil hf, by simp [hf], MatchedInv_of_nil hm⟩

theorem SessInv_cardClick {s : GameState} (index : Nat) (hi : index < s.cards.length)
    (h : SessInv s) : SessInv (cardClick index s) := by
  obtain ⟨h1, h2, h3⟩ := h
  refine ⟨FlipInv_cardClick index h1, ?_, ?_⟩
  · rcases cardClick_cases s index with e | ⟨-, -, -, -, e1, -, e3, -⟩
    · rw [e]; exact h2
    · intro i hmem
      rw [e1] at hmem
      rw [e3]
      rcases List.mem_append.1 hmem with hmem | hmem
      · exact h2 i hmem
      · rw [List.mem_singleton.1 hmem]; exact hi
  · rcases cardClick_cases s index with e | ⟨-, -, -, -, -, e2, e3, -⟩
    · rw [e]; exact h3
    · exact MatchedInv_congr e2 e3 h3

/-- Adding a pair of different unmatched positions with equal symbols keeps the shape. -/
theorem MatchedInv_push {s t : GameState} {i j : Nat} (hc : t.cards = s.cards)
    (hm : t.matched = s.matched ++ [some i, some j]) (h : MatchedInv s) (hij : i ≠ j)
    (hi : i < s.cards.length) (hj : j < s.cards.length)
    (hmi : some i ∉ s.matched) (hmj : some j ∉ s.matched)
    (heq : s.cards[i] = s.cards[j]) : MatchedInv t := by
  obtain ⟨hev, hnd, hr, hp⟩ := h
  unfold MatchedInv
  rw [hm, hc]
  refine ⟨?_, ?_, ?_, ?_⟩
  · rw [List.length_append]
    simpa [Nat.even_add] using hev
  · refine List.Nodup.append hnd (by simp [hij]) ?_
    intro x hx hx2
    simp at hx2
    rcases hx2 with rfl | rfl
    · exact hmi hx
    · exact hmj hx
  · intro m hmem
    rcases List.mem_append.1 hmem with hmem | hmem
    · exact hr m hmem
    · simp at hmem
      rcases hmem with rfl | rfl
      · exact ⟨i, rfl, hi⟩
      · exact ⟨j, rfl, hj⟩
  · intro k hk
    simp only [List.length_append, List.length_cons, List.length_nil] at hk
    by_cases hlt : 2 * k + 1 < s.matched.length
    · obtain ⟨a, b, ha, hb, hrest⟩ := hp k hlt
      refine ⟨a, b, ?_, ?_, hrest⟩
      · rw [List.getElem?_append_left (by omega)]; exact ha
      · rw [List.getElem?_append_left hlt]; exact hb
    · have hk2 : 2 * k = s.matched.length := by
        obtain ⟨r, hr⟩ := hev
        omega
      refine ⟨i, j, ?_, ?_, hij, hi, hj, heq⟩
      · rw [List.getElem?_append_right (by omega)]; simp [hk2]
      · rw [List.getElem?_append_right (by omega)]; simp [← hk2]

theorem SessInv_checkMatch {s : GameState} (h2 : s.flipped.length = 2) (h : SessInv s) :
    SessInv (checkMatch s) := by
  obtain ⟨⟨-, hn, hd⟩, hr, hm⟩ := h
  refine ⟨FlipInv_of_nil (checkMatch_flipped s), by simp, ?_⟩
  match hfl : s.flipped, h2 with
  | [i, j], _ =>
    rw [hfl] at hn hd hr
    have hij : i ≠ j := by simpa using hn
    have hi : i < s.cards.length := hr i (by simp)
    have hj : j < s.cards.length := hr j (by simp)
    have hmat : (checkMatch s).matched =
        if s.cards[i] = s.cards[j] then s.matched ++ [some i, some j] else s.matched := by
      rw [checkMatch_matched, resolveFlipped_matched]
      simp [hfl, cardAt, List.getElem?_eq_getElem hi, List.getElem?_eq_getElem hj]
    by_cases heq : s.cards[i] = s.cards[j]
    · rw [if_pos heq] at hmat
      exact MatchedInv_push (checkMatch_cards s) hmat hm hij hi hj (hd i (by simp))
        (hd j (by simp)) heq
    · rw [if_neg heq] at hmat
      exact MatchedInv_congr hmat (checkMatch_cards s) hm

theorem SessInv_session {s : GameState} (h : Session s) : SessInv s := by
  induction h with
  | start sh d s0 =>
    show SessInv (startGame sh d s0)
    exact SessInv_of_nil (startGame_fields sh d s0).1 (startGame_fields sh d s0).2.1
  | @click s index _ hi ih =>
    show SessInv (cardClick index s)
    exact SessInv_cardClick index hi ih
  | @check s _ h2 ih =>
    show SessInv (checkMatch s)
    exact SessInv_checkMatch h2 ih
  | @tick s _ ih =>
    show SessInv (if s.intervals = [] then s else timerCallback s)
    split
    · exact ih
    · exact SessInv_congr rfl rfl rfl ih
  | @restart s sh _ _ =>
    show SessInv (restartGame sh s)
    exact SessInv_of_nil (restartGame_fields sh _).1 (restartGame_fields sh _).2.1
  | @menu s _ ih =>
    show SessInv (returnToMenu s)
    exact SessInv_congr (returnToMenu_fields _).1 (returnToMenu_fields _).2.1
      (returnToMenu_fields _).2.2.2.2.2 ih

/-- C5: in every state reached from `startGame` by clicks on positions of the
deck, `checkMatch` taken when `flipped` holds exactly two indices,
`restartGame`, `returnToMenu` and timer ticks, `matched` has even length,
holds no entry twice, holds only positions of the deck, and its entries at
`2 * k` and `2 * k + 1` are two different positions with equal symbols. -/
theorem matched_shape (s : GameState) (h : Session s) :
    Even s.matched.length ∧ s.matched.Nodup ∧
    (∀ m ∈ s.matched, ∃ i, m = some i ∧ i < s.cards.length) ∧
    ∀ k, 2 * k + 1 < s.matched.length →
      ∃ i j, s.matched[2 * k]? = some (some i) ∧ s.matched[2 * k + 1]? = some (some j) ∧
        i ≠ j ∧ ∃ (hi : i < s.cards.length) (hj : j < s.cards.length), s.cards[i] = s.cards[j] :=
  (SessInv_session h).2.2


/-! ## Completion -/

theorem Play.session {s : GameState} (h : Play s) : Session s := by
  induction h with
  | start sh d s0 => exact Session.start sh d s0
  | click index _ hi ih => exact Session.click index ih hi
  | check _ h2 ih => exact Session.check ih h2
  | tick _ ih => exact Session.tick ih

/-- A list without repetition whose entries are positions below `n` has length
`n` exactly when it holds every position below `n`. -/
theorem length_eq_iff_covers (l : List (Option Nat)) (n : Nat) (hnd : l.Nodup)
    (hr : ∀ m ∈ l, ∃ i, m = some i ∧ i < n) :
    l.length = n ↔ ∀ i, i < n → some i ∈ l := by
  have hsub : l ⊆ (List.range n).map some := by
    intro m hm
    obtain ⟨i, rfl, hi⟩ := hr m hm
    exact List.mem_map.2 ⟨i, List.mem_range.2 hi, rfl⟩
  have hlen : ((List.range n).map some).length = n := by simp
  have hsp : List.Subperm l ((List.range n).map some) := List.subperm_of_subset hnd hsub
  constructor
  · intro h i hi
    have hp : List.Perm l ((List.range n).map some) :=
      hsp.perm_of_length_le (by rw [hlen, h])
    exact hp.mem_iff.2 (List.mem_map.2 ⟨i, List.mem_range.2 hi, rfl⟩)
  · intro h
    have hnd2 : ((List.range n).map some).Nodup :=
      (List.nodup_range n).map (Option.some_injective _)
    have hsub2 : (List.range n).map some ⊆ l := by
      intro m hm
      obtain ⟨i, hi, rfl⟩ := List.mem_map.1 hm
      exact h i (List.mem_range.1 hi)
    have h1 := (List.subperm_of_subset hnd2 hsub2).length_le
    have h2 := hsp.length_le
    omega

theorem MatchedInv.length_iff {s : GameState} (h : MatchedInv s) :
    s.matched.length = s.cards.length ↔ AllMatched s :=
  length_eq_iff_covers s.matched s.cards.length h.2.1 h.2.2.1

/-- C6: in every state reached from `startGame` by clicks on positions of the
deck, `checkMatch` taken when `flipped` holds exactly two indices and timer
ticks, when two cards are face up the test `matched.length === cards.length`
that `checkMatch` makes after the resolution holds exactly when every position
of the deck is in `matched`; `checkMatch` then continues with `endGame`, and
otherwise returns the resolved state with `gameActive` true. -/
theorem endGame_iff_allMatched (s : GameState) (h : Play s) (h2 : s.flipped.length = 2) :
    ((resolveFlipped s).matched.length = (resolveFlipped s).cards.length ↔
        AllMatched (resolveFlipped s)) ∧
    (AllMatched (resolveFlipped s) → checkMatch s = endGame (resolveFlipped s)) ∧
    (¬ AllMatched (resolveFlipped s) → checkMatch s = resolveFlipped s) ∧
    ((checkMatch s).gameActive = false ↔ AllMatched (checkMatch s)) := by
  have hinv : MatchedInv (checkMatch s) := (SessInv_checkMatch h2 (SessInv_session h.session)).2.2
  have hr : MatchedInv (resolveFlipped s) :=
    MatchedInv_congr (checkMatch_matched s).symm (by simp) hinv
  have hiff := hr.length_iff
  have hA : AllMatched (checkMatch s) ↔ AllMatched (resolveFlipped s) := by
    unfold AllMatched; simp
  refine ⟨hiff, ?_, ?_, ?_⟩
  · intro ha
    unfold checkMatch
    simp only []
    rw [if_pos (hiff.2 ha)]
  · intro ha
    unfold checkMatch
    simp only []
    rw [if_neg (fun hlen => ha (hiff.1 hlen))]
  · rw [hA, ← hiff]
    unfold checkMatch
    simp only []
    split
    · rename_i hl; simp [hl]
    · rename_i hl; simpa using hl

/-! ## The time format and `restartGame` -/

theorem flatten_replicate_singleton (k : Nat) (c : Char) :
    (List.replicate k [c]).flatten = List.replicate k c := by
  induction k with
  | zero => rfl
  | succ k ih => simp [List.replicate_succ, ih]

theorem padStart_zero (s : String) (w : Nat) : padStart s w "0" = zeroPadded w s := by
  unfold padStart zeroPadded
  by_cases h : w ≤ s.length
  · rw [if_pos h, Nat.sub_eq_zero_of_le h]
    apply String.ext
    simp
  · rw [if_neg h, if_neg (by decide)]
    have hd : ("0" : String).data = ['0'] := rfl
    simp only [hd, flatten_replicate_singleton, List.take_replicate, Nat.min_self]

theorem zeroPadded_length (s : String) (w : Nat) :
    (zeroPadded w s).length = max w s.length := by
  unfold zeroPadded
  rw [String.length_append]
  show (List.replicate (w - s.length) '0').length + s.length = _
  rw [List.length_replicate]
  omega

theorem timeString_eq (s : Nat) : timeString s = minutesSeconds s := by
  unfold timeString minutesSeconds
  simp only [padStart_zero]

theorem seconds_two_chars : ∀ n, n < 60 → (Nat.repr n).length ≤ 2 := by decide

/-- C9: the text that the timer callback and `endGame` build from an elapsed
time `s` is the decimal numeral of `s / 60` padded on the left with zeros to at
least two characters, a colon, and the decimal numeral of `s % 60` padded on
the left with zeros to exactly two characters; minutes are not reduced modulo
60: 125 gives "02:05" and 3665 gives "61:05". -/
theorem time_format (s : Nat) (st : GameState) :
    timeString s = minutesSeconds s ∧
    (timerCallback st).timerDisplay = minutesSeconds (st.totalTime + 1) ∧
    (endGame st).completionText =
      "Ты справился(лась) за " ++ Nat.repr st.moves ++ " ходов и " ++
        minutesSeconds st.totalTime ++ "!" ∧
    2 ≤ (zeroPadded 2 (Nat.repr (s / 60))).length ∧
    (zeroPadded 2 (Nat.repr (s % 60))).length = 2 ∧
    timeString 125 = "02:05" ∧ timeString 3665 = "61:05" := by
  refine ⟨timeString_eq s, ?_, ?_, ?_, ?_, by decide, by decide⟩
  · simp [timerCallback, timeString_eq]
  · simp [endGame, stopTimer, timeString_eq]
  · rw [zeroPadded_length]; omega
  · rw [zeroPadded_length]
    have := seconds_two_chars (s % 60) (Nat.mod_lt _ (by decide))
    omega

/-- C8: whatever the state and whatever rearrangement the shuffle returns,
the deck after `restartGame` is a permutation of the deck before: same length,
same number of occurrences of every symbol, so that a deck in which every
symbol occurs twice stays one; `flipped` and `matched` are empty, `moves` and
`totalTime` are 0 and `gameActive` is true. -/
theorem restartGame_deck (sh : Shuffle) (s : GameState) :
    List.Perm (restartGame sh s).cards s.cards ∧
    (restartGame sh s).cards.length = s.cards.length ∧
    (∀ e, (restartGame sh s).cards.count e = s.cards.count e) ∧
    ((∀ e ∈ s.cards, s.cards.count e = 2) →
      ∀ e ∈ (restartGame sh s).cards, (restartGame sh s).cards.count e = 2) ∧
    (restartGame sh s).flipped = [] ∧ (restartGame sh s).matched = [] ∧
    (restartGame sh s).moves = 0 ∧ (restartGame sh s).totalTime = 0 ∧
    (restartGame sh s).gameActive = true := by
  obtain ⟨h1, h2, h3, h4, h5, h6⟩ := restartGame_fields sh s
  have hp : List.Perm (restartGame sh s).cards s.cards := by rw [h6]; exact sh.perm _
  refine ⟨hp, hp.length_eq, fun e => hp.count_eq e, ?_, h1, h2, h3, h4, h5⟩
  intro h e he
  rw [hp.count_eq]
  exact h e (hp.mem_iff.1 he)


/-! ## Two flips and a resolution -/

/-- C3: from an active state with no card face up, for two different positions
`i` and `j` of the deck that are not matched, `cardClick(i)`, `cardClick(j)`
and then `checkMatch` leave `flipped` empty and `moves` one higher; the first
click does not change `moves`, the second adds one, `checkMatch` adds nothing;
and either the two symbols are equal and `matched` is the old `matched`
followed by `i` and `j`, or they differ and `matched` is unchanged. -/
theorem two_flips_resolve (s : GameState) (i j : Nat)
    (hact : s.gameActive = true) (hflip : s.flipped = []) (hij : i ≠ j)
    (hi : i < s.cards.length) (hj : j < s.cards.length)
    (hmi : some i ∉ s.matched) (hmj : some j ∉ s.matched) :
    (cardClick i s).moves = s.moves ∧
    (cardClick j (cardClick i s)).moves = s.moves + 1 ∧
    (checkMatch (cardClick j (cardClick i s))).moves = s.moves + 1 ∧
    (checkMatch (cardClick j (cardClick i s))).flipped = [] ∧
    ((s.cards[i] = s.cards[j] ∧
        (checkMatch (cardClick j (cardClick i s))).matched = s.matched ++ [some i, some j]) ∨
     (s.cards[i] ≠ s.cards[j] ∧
        (checkMatch (cardClick j (cardClick i s))).matched = s.matched)) := by
  have e1 : cardClick i s = renderBoard { s with flipped := [i] } := by
    rw [cardClick_accepted s i hact (by simp [hflip]) hmi (by simp [hflip])]
    simp [hflip]
  have e2 : cardClick j (cardClick i s) =
      { renderBoard { s with flipped := [i, j] } with
          gameActive := false
          moves := s.moves + 1
          movesDisplay := Nat.repr (s.moves + 1)
          scheduledChecks := s.scheduledChecks + 1
          nextHandle := s.nextHandle + 1 } := by
    rw [cardClick_accepted (cardClick i s) j (by simp [e1, hact])
      (by simp [e1]; exact fun h => hij h.symm) (by simpa [e1] using hmj) (by simp [e1])]
    simp [e1, renderBoard]
  refine ⟨by simp [e1], by simp [e2], by simp [e2], by simp, ?_⟩
  rw [checkMatch_matched, resolveFlipped_matched]
  simp only [e2, cardAt]
  simp [renderBoard, List.getElem?_eq_getElem hi, List.getElem?_eq_getElem hj]
  by_cases h : s.cards[i] = s.cards[j]
  · left; simp [h]
  · right; simp [h]

theorem demoStart_lt0 : 0 < demoStart.cards.length := by decide
theorem demoStart_lt8 : 8 < demoStart.cards.length := by decide

theorem two_flips_resolve_witness :
    (demoStart.gameActive = true ∧ demoStart.flipped = [] ∧ 0 ≠ 8 ∧
      0 < demoStart.cards.length ∧ 8 < demoStart.cards.length ∧
      some 0 ∉ demoStart.matched ∧ some 8 ∉ demoStart.matched) ∧
    ((cardClick 0 demoStart).moves = demoStart.moves ∧
    (cardClick 8 (cardClick 0 demoStart)).moves = demoStart.moves + 1 ∧
    (checkMatch (cardClick 8 (cardClick 0 demoStart))).moves = demoStart.moves + 1 ∧
    (checkMatch (cardClick 8 (cardClick 0 demoStart))).flipped = [] ∧
    ((demoStart.cards.get ⟨0, demoStart_lt0⟩ = demoStart.cards.get ⟨8, demoStart_lt8⟩ ∧
        (checkMatch (cardClick 8 (cardClick 0 demoStart))).matched =
          demoStart.matched ++ [some 0, some 8]) ∨
     (demoStart.cards.get ⟨0, demoStart_lt0⟩ ≠ demoStart.cards.get ⟨8, demoStart_lt8⟩ ∧
        (checkMatch (cardClick 8 (cardClick 0 demoStart))).matched = demoStart.matched))) :=
  ⟨by decide, two_flips_resolve demoStart 0 8 (by decide) (by decide) (by decide)
    (by decide) (by decide) (by decide) (by decide)⟩

theorem cardClick_guard_witness :
    demoTwoFlipped.flipped.length ≤ 2 ∧
    ((demoTwoFlipped.gameActive = false ∨ 3 ∈ demoTwoFlipped.flipped ∨
        some 3 ∈ demoTwoFlipped.matched ∨ demoTwoFlipped.flipped.length = 2) →
      cardClick 3 demoTwoFlipped = demoTwoFlipped) ∧
    (¬ (demoTwoFlipped.gameActive = false ∨ 3 ∈ demoTwoFlipped.flipped ∨
        some 3 ∈ demoTwoFlipped.matched ∨ demoTwoFlipped.flipped.length = 2) →
      (cardClick 3 demoTwoFlipped).flipped = demoTwoFlipped.flipped ++ [3] ∧
      (cardClick 3 demoTwoFlipped).cards = demoTwoFlipped.cards ∧
      (cardClick 3 demoTwoFlipped).matched = demoTwoFlipped.matched ∧
      (cardClick 3 demoTwoFlipped).totalTime = demoTwoFlipped.totalTime) :=
  ⟨by decide, cardClick_guard demoTwoFlipped 3 (by decide)⟩

theorem flipped_bound_witness :
    IsInitial pageLoad ∧
    (run pageLoad leakTrace).flipped.length ≤ 2 ∧ (run pageLoad leakTrace).flipped.Nodup ∧
    ∀ i ∈ (run pageLoad leakTrace).flipped, some i ∉ (run pageLoad leakTrace).matched :=
  ⟨by decide, flipped_bound pageLoad (by decide) leakTrace⟩

theorem demoOnePair_session : Session demoOnePair :=
  Session.check (Session.click 8 (Session.click 0 (Session.start Shuffle.id 4 pageLoad)
    (by decide)) (by decide)) (by decide)

theorem demoTwoFlipped_play : Play demoTwoFlipped :=
  Play.click 8 (Play.click 0 (Play.start Shuffle.id 4 pageLoad) (by decide)) (by decide)

theorem matched_shape_witness :
    Session demoOnePair ∧
    (Even demoOnePair.matched.length ∧ demoOnePair.matched.Nodup ∧
    (∀ m ∈ demoOnePair.matched, ∃ i, m = some i ∧ i < demoOnePair.cards.length) ∧
    ∀ k, 2 * k + 1 < demoOnePair.matched.length →
      ∃ i j, demoOnePair.matched[2 * k]? = some (some i) ∧
        demoOnePair.matched[2 * k + 1]? = some (some j) ∧
        i ≠ j ∧ ∃ (hi : i < demoOnePair.cards.length) (hj : j < demoOnePair.cards.length),
          demoOnePair.cards[i] = demoOnePair.cards[j]) :=
  ⟨demoOnePair_session, matched_shape demoOnePair demoOnePair_session⟩

theorem endGame_iff_allMatched_witness :
    (Play demoTwoFlipped ∧ demoTwoFlipped.flipped.length = 2) ∧
    (((resolveFlipped demoTwoFlipped).matched.length =
          (resolveFlipped demoTwoFlipped).cards.length ↔
        AllMatched (resolveFlipped demoTwoFlipped)) ∧
    (AllMatched (resolveFlipped demoTwoFlipped) →
      checkMatch demoTwoFlipped = endGame (resolveFlipped demoTwoFlipped)) ∧
    (¬ AllMatched (resolveFlipped demoTwoFlipped) →
      checkMatch demoTwoFlipped = resolveFlipped demoTwoFlipped) ∧
    ((checkMatch demoTwoFlipped).gameActive = false ↔ AllMatched (checkMatch demoTwoFlipped))) :=
  ⟨⟨demoTwoFlipped_play, by decide⟩,
    endGame_iff_allMatched demoTwoFlipped demoTwoFlipped_play (by decide)⟩


/-! ## The timer -/

/-- `startGame` registers a new interval and cancels none. -/
theorem startGame_intervals (sh : Shuffle) (d : Nat) (s : GameState) :
    (startGame sh d s).intervals = s.intervals ++ [s.nextHandle] := by
  simp [startGame, startTimer, renderBoard]

/-- `restartGame` registers a new interval and cancels none. -/
theorem restartGame_intervals (sh : Shuffle) (s : GameState) :
    (restartGame sh s).intervals = s.intervals ++ [s.nextHandle] := by
  simp [restartGame, startTimer, renderBoard]

/-- `returnToMenu` cancels the interval whose handle `timerInterval` holds. -/
theorem returnToMenu_intervals (s : GameState) (h : Nat) (hh : s.timerInterval = some h) :
    (returnToMenu s).intervals = s.intervals.filter fun k => k != h := by
  simp [returnToMenu, stopTimer, clearInterval, hh]

/-- `endGame` cancels the interval whose handle `timerInterval` holds. -/
theorem endGame_intervals (s : GameState) (h : Nat) (hh : s.timerInterval = some h) :
    (endGame s).intervals = s.intervals.filter fun k => k != h := by
  simp [endGame, stopTimer, clearInterval, hh]

/-- When no interval but the one in `timerInterval` is running, none runs after `endGame`. -/
theorem endGame_no_timer (s : GameState) (h : Nat) (hh : s.timerInterval = some h)
    (hone : ∀ k ∈ s.intervals, k = h) : (endGame s).intervals = [] := by
  rw [endGame_intervals s h hh]
  simpa [List.filter_eq_nil_iff] using hone

/-- After `endGame` every click is ignored, however many follow. -/
theorem endGame_clicks (s : GameState) (indices : List Nat) :
    run (endGame s) (indices.map Event.cardClick) = endGame s := by
  induction indices with
  | nil => rfl
  | cons i rest ih =>
    show run (cardClick i (endGame s)) (rest.map Event.cardClick) = endGame s
    rw [cardClick_rejected (endGame s) i (Or.inl (endGame_gameActive s))]
    exact ih

/-- C10, evaluated at the button presses `leakTrace`: `restartGame` and
`startGame` each start an interval without cancelling the one that runs, so
two intervals run at the end (handles 10 and 11, of which `timerInterval`
holds only 11) and one elapsed second moves `totalTime` from 0 to 2. -/
theorem timer_leak :
    (run pageLoad leakTrace).intervals = [10, 11] ∧
    (run pageLoad leakTrace).timerInterval = some 11 ∧
    (run pageLoad leakTrace).totalTime = 0 ∧
    (elapseSecond (run pageLoad leakTrace)).totalTime = 2 := by
  decide!

/-- C7, evaluated at the button presses `leakThenComplete`: the last
`checkMatch` runs `endGame`, the popup is shown and `gameActive` is false, yet
the interval with handle 10 is still running and one second later `totalTime`
has moved from 0 to 1 and the page shows "00:01". -/
theorem complete_timer_running :
    run pageLoad leakThenComplete =
      endGame (resolveFlipped (run pageLoad leakThenComplete.dropLast)) ∧
    (run pageLoad leakThenComplete).popupActive = true ∧
    (run pageLoad leakThenComplete).gameActive = false ∧
    (run pageLoad leakThenComplete).intervals = [10] ∧
    (run pageLoad leakThenComplete).totalTime = 0 ∧
    (elapseSecond (run pageLoad leakThenComplete)).totalTime = 1 ∧
    (elapseSecond (run pageLoad leakThenComplete)).timerDisplay = "00:01" := by
  decide!

/-! ## The lock during a resolution -/

theorem LockInv_of_nil {s : GameState} (h : s.flipped = []) : LockInv s := by
  intro h2; rw [h] at h2; simp at h2

theorem LockInv_step {s : GameState} (e : Event) (h : LockInv s) : LockInv (step s e) := by
  cases e with
  | startGame sh d => exact LockInv_of_nil (startGame_fields sh d s).1
  | cardClick i =>
    show LockInv (cardClick i s)
    rcases cardClick_cases s i with e | ⟨-, -, -, -, e1, -, -, -, -, -, -, e8⟩
    · rw [e]; exact h
    · intro h2
      rw [e1, List.length_append] at h2
      have h1 : s.flipped.length = 1 := by simpa using h2
      rw [e8, if_pos h1]
  | checkMatch => exact LockInv_of_nil (checkMatch_flipped _)
  | restartGame sh => exact LockInv_of_nil (restartGame_fields sh s).1
  | returnToMenu => exact fun _ => (returnToMenu_fields s).2.2.2.2.1
  | tick =>
    show LockInv (if s.intervals = [] then s else timerCallback s)
    split
    · exact h
    · exact h

theorem LockInv_run (evs : List Event) : ∀ {s : GameState}, LockInv s → LockInv (run s evs) := by
  induction evs with
  | nil => intro s h; exact h
  | cons e evs ih => intro s h; exact ih (LockInv_step e h)

/-- C11: in every state reached from the loaded page by any sequence of
`startGame`, `cardClick`, `checkMatch` at any time, `restartGame`,
`returnToMenu` and timer ticks, if `flipped` holds two indices then
`gameActive` is false, and `cardClick` then returns the state unchanged for
every index. -/
theorem resolving_locked (s0 : GameState) (h0 : IsInitial s0) (evs : List Event)
    (h2 : (run s0 evs).flipped.length = 2) :
    (run s0 evs).gameActive = false ∧
    ∀ index, cardClick index (run s0 evs) = run s0 evs := by
  have hlock : (run s0 evs).gameActive = false :=
    LockInv_run evs (LockInv_of_nil h0.2.2.1) h2
  exact ⟨hlock, fun index => cardClick_rejected _ index (Or.inl hlock)⟩

theorem resolving_locked_witness :
    (IsInitial pageLoad ∧
      (run pageLoad [Event.startGame Shuffle.id 4, Event.cardClick 0,
        Event.cardClick 8]).flipped.length = 2) ∧
    ((run pageLoad [Event.startGame Shuffle.id 4, Event.cardClick 0,
        Event.cardClick 8]).gameActive = false ∧
    ∀ index, cardClick index (run pageLoad [Event.startGame Shuffle.id 4, Event.cardClick 0,
        Event.cardClick 8]) = run pageLoad [Event.startGame Shuffle.id 4, Event.cardClick 0,
        Event.cardClick 8]) :=
  ⟨⟨by decide, by decide⟩,
    resolving_locked pageLoad (by decide)
      [Event.startGame Shuffle.id 4, Event.cardClick 0, Event.cardClick 8] (by decide)⟩

/-! ## A resolution without a match -/

@[simp]
theorem resolveFlipped_intervals (s : GameState) :
    (resolveFlipped s).intervals = s.intervals := by
  unfold resolveFlipped; simp only []; split <;> rfl
@[simp]
theorem resolveFlipped_timerInterval (s : GameState) :
    (resolveFlipped s).timerInterval = s.timerInterval := by
  unfold resolveFlipped; simp only []; split <;> rfl
@[simp]
theorem resolveFlipped_popupActive (s : GameState) :
    (resolveFlipped s).popupActive = s.popupActive := by
  unfold resolveFlipped; simp only []; split <;> rfl

theorem startGame_timer (sh : Shuffle) (d : Nat) (s : GameState) :
    (startGame sh d s).timerInterval = some s.nextHandle ∧
    s.nextHandle ∈ (startGame sh d s).intervals := by
  simp [startGame, startTimer, renderBoard]

theorem TimerInv_play {s : GameState} (h : Play s) : TimerInv s := by
  induction h with
  | start sh d s0 => exact Or.inr ⟨s0.nextHandle, startGame_timer sh d s0⟩
  | @click s index _ _ ih =>
    show TimerInv (cardClick index s)
    rcases cardClick_cases s index with e | ⟨hact, -, -, -, -, -, -, -, e5, e6, -, -⟩
    · rw [e]; exact ih
    · rcases ih with ⟨hf, -⟩ | ⟨k, hk, hmem⟩
      · rw [hact] at hf; exact absurd hf (by decide)
      · exact Or.inr ⟨k, by rw [e6]; exact hk, by rw [e5]; exact hmem⟩
  | @check s _ h2 ih =>
    show TimerInv (checkMatch s)
    rcases ih with ⟨-, hf⟩ | ⟨k, hk, hmem⟩
    · rw [hf] at h2; simp at h2
    · unfold checkMatch
      simp only []
      split
      · exact Or.inl ⟨endGame_gameActive _, by simp⟩
      · exact Or.inr ⟨k, by simpa using hk, by simpa using hmem⟩
  | @tick s _ ih =>
    show TimerInv (if s.intervals = [] then s else timerCallback s)
    split
    · exact ih
    · exact ih

/-- With two different unmatched positions face up and no match the deck is not covered. -/
theorem not_full_of_flipped {s : GameState} (h : SessInv s) (h2 : s.flipped.length = 2) :
    s.matched.length ≠ s.cards.length := by
  intro hlen
  obtain ⟨⟨-, -, hd⟩, hr, hm⟩ := h
  have hall : AllMatched s := hm.length_iff.1 hlen
  match hfl : s.flipped, h2 with
  | [i, j], _ =>
    rw [hfl] at hd hr
    exact hd i (by simp) (hall i (hr i (by simp)))

/-- C14: in every state reached from `startGame` by clicks on positions of the
deck, `checkMatch` taken when two cards are face up and timer ticks, with two
cards face up `checkMatch`, which makes the length test after every
resolution, does what the resolution that tests for completion only after a
match does; and when the two cards carry different symbols it does not run
`endGame`: `matched` is unchanged and shorter than the deck, `gameActive` is
true afterwards, the popup is as before, and the interval of the session is
still running. -/
theorem mismatch_keeps_playing (s : GameState) (h : Play s) (h2 : s.flipped.length = 2) :
    checkMatch s = checkMatchSpec s ∧
    (cardAt s.cards s.flipped[0]? ≠ cardAt s.cards s.flipped[1]? →
      checkMatch s = resolveFlipped s ∧
      (checkMatch s).matched = s.matched ∧
      (checkMatch s).matched.length ≠ (checkMatch s).cards.length ∧
      (checkMatch s).gameActive = true ∧
      (checkMatch s).popupActive = s.popupActive ∧
      (checkMatch s).intervals = s.intervals ∧
      ∃ k, (checkMatch s).timerInterval = some k ∧ k ∈ (checkMatch s).intervals) := by
  have hfull := not_full_of_flipped (SessInv_session h.session) h2
  have hmis : cardAt s.cards s.flipped[0]? ≠ cardAt s.cards s.flipped[1]? →
      checkMatch s = resolveFlipped s ∧ (resolveFlipped s).matched = s.matched := by
    intro hne
    have hm : (resolveFlipped s).matched = s.matched := by
      rw [resolveFlipped_matched, if_neg hne]
    refine ⟨?_, hm⟩
    unfold checkMatch
    simp only []
    rw [if_neg (by rw [hm, resolveFlipped_cards]; exact hfull)]
  constructor
  · by_cases hc : cardAt s.cards s.flipped[0]? = cardAt s.cards s.flipped[1]?
    · unfold checkMatch checkMatchSpec resolveFlipped
      simp only [if_pos hc]
    · rw [(hmis hc).1]
      unfold checkMatchSpec resolveFlipped
      simp only [if_neg hc]
  · intro hne
    obtain ⟨e, hm⟩ := hmis hne
    have htimer : TimerInv s := TimerInv_play h
    rcases htimer with ⟨-, hf⟩ | ⟨k, hk, hmem⟩
    · rw [hf] at h2; simp at h2
    · rw [e]
      refine ⟨rfl, hm, ?_, by simp, by simp, by simp, k, by simpa using hk, by simpa using hmem⟩
      rw [hm, resolveFlipped_cards]; exact hfull


theorem demoMismatch_play : Play demoMismatch :=
  Play.click 1 (Play.click 0 (Play.start Shuffle.id 4 pageLoad) (by decide)) (by decide)

theorem mismatch_keeps_playing_witness :
    (Play demoMismatch ∧ demoMismatch.flipped.length = 2) ∧
    (checkMatch demoMismatch = checkMatchSpec demoMismatch ∧
    (cardAt demoMismatch.cards demoMismatch.flipped[0]? ≠
        cardAt demoMismatch.cards demoMismatch.flipped[1]? →
      checkMatch demoMismatch = resolveFlipped demoMismatch ∧
      (checkMatch demoMismatch).matched = demoMismatch.matched ∧
      (checkMatch demoMismatch).matched.length ≠ (checkMatch demoMismatch).cards.length ∧
      (checkMatch demoMismatch).gameActive = true ∧
      (checkMatch demoMismatch).popupActive = demoMismatch.popupActive ∧
      (checkMatch demoMismatch).intervals = demoMismatch.intervals ∧
      ∃ k, (checkMatch demoMismatch).timerInterval = some k ∧
        k ∈ (checkMatch demoMismatch).intervals)) :=
  ⟨⟨demoMismatch_play, by decide⟩,
    mismatch_keeps_playing demoMismatch demoMismatch_play (by decide)⟩

/-! ## Moves and pairs -/

@[simp]
theorem cardClick_difficulty (s : GameState) (i : Nat) :
    (cardClick i s).difficulty = s.difficulty := by
  unfold cardClick; simp only []; split_ifs <;> rfl
@[simp]
theorem cardClick_cards (s : GameState) (i : Nat) : (cardClick i s).cards = s.cards := by
  unfold cardClick; simp only []; split_ifs <;> rfl
@[simp]
theorem cardClick_matched (s : GameState) (i : Nat) : (cardClick i s).matched = s.matched := by
  unfold cardClick; simp only []; split_ifs <;> rfl
@[simp]
theorem resolveFlipped_difficulty (s : GameState) :
    (resolveFlipped s).difficulty = s.difficulty := by
  unfold resolveFlipped; simp only []; split <;> rfl
@[simp]
theorem endGame_difficulty (s : GameState) : (endGame s).difficulty = s.difficulty := by
  unfold endGame stopTimer clearInterval; simp only []; split <;> rfl
@[simp]
theorem endGame_popupActive (s : GameState) : (endGame s).popupActive = true := by
  simp [endGame]
@[simp]
theorem checkMatch_difficulty (s : GameState) : (checkMatch s).difficulty = s.difficulty := by
  unfold checkMatch; simp only []; split <;> simp

theorem startGame_deckInv (sh : Shuffle) (d : Nat) (s : GameState) :
    DeckInv (startGame sh d s) := by
  have hd : (startGame sh d s).difficulty = some d := by
    simp [startGame, startTimer, renderBoard]
  unfold DeckInv
  rw [hd, startGame_cards, (sh.perm _).length_eq]
  by_cases h : d = 4
  · left; subst h; exact ⟨rfl, by decide⟩
  · right
    refine ⟨fun e => h (Option.some.inj e), ?_⟩
    rw [if_neg h]; decide

theorem DeckInv_congr {s t : GameState} (hd : t.difficulty = s.difficulty)
    (hc : t.cards = s.cards) (h : DeckInv s) : DeckInv t := by
  unfold DeckInv at *; rw [hd, hc]; exact h

theorem DeckInv_play {s : GameState} (h : Play s) : DeckInv s := by
  induction h with
  | start sh d s0 => exact startGame_deckInv sh d s0
  | @click s index _ _ ih => exact DeckInv_congr (cardClick_difficulty s index) (cardClick_cards s index) ih
  | @check s _ _ ih => exact DeckInv_congr (checkMatch_difficulty s) (checkMatch_cards s) ih
  | @tick s _ ih =>
    show DeckInv (if s.intervals = [] then s else timerCallback s)
    split
    · exact ih
    · exact ih

theorem MovesInv_play {s : GameState} (h : Play s) : MovesInv s := by
  induction h with
  | start sh d s0 =>
    have hf := startGame_fields sh d s0
    show MovesInv (startGame sh d s0)
    unfold MovesInv
    rw [hf.1, hf.2.1, hf.2.2.1]
    simp
  | @click s index _ _ ih =>
    show MovesInv (cardClick index s)
    rcases cardClick_cases s index with e | ⟨-, -, -, h4, e1, e2, -, -, -, -, e7, -⟩
    · rw [e]; exact ih
    · unfold MovesInv at *
      rw [e1, e2, e7, List.length_append]
      simp only [List.length_singleton]
      split_ifs at ih ⊢ <;> omega
  | @check s _ h2 ih =>
    show MovesInv (checkMatch s)
    unfold MovesInv at *
    rw [checkMatch_flipped, checkMatch_matched, checkMatch_moves, resolveFlipped_matched]
    rw [if_pos h2] at ih
    split
    · simp only [List.length_append, List.length_cons, List.length_nil]
      simp
      omega
    · simp; omega
  | @tick s _ ih =>
    show MovesInv (if s.intervals = [] then s else timerCallback s)
    split
    · exact ih
    · exact ih

/-- The state after two accepted clicks on an empty table. -/
theorem two_clicks (s : GameState) (i j : Nat)
    (hact : s.gameActive = true) (hflip : s.flipped = []) (hij : i ≠ j)
    (hmi : some i ∉ s.matched) (hmj : some j ∉ s.matched) :
    cardClick j (cardClick i s) =
      { renderBoard { s with flipped := [i, j] } with
          gameActive := false
          moves := s.moves + 1
          movesDisplay := Nat.repr (s.moves + 1)
          scheduledChecks := s.scheduledChecks + 1
          nextHandle := s.nextHandle + 1 } := by
  have e1 : cardClick i s = renderBoard { s with flipped := [i] } := by
    rw [cardClick_accepted s i hact (by simp [hflip]) hmi (by simp [hflip])]
    simp [hflip]
  rw [cardClick_accepted (cardClick i s) j (by simp [e1, hact])
    (by simp [e1]; exact fun h => hij h.symm) (by simpa [e1] using hmj) (by simp [e1])]
  simp [e1, renderBoard]

/-- Two clicks on a matching pair and the resolution. -/
theorem flip_pair (s : GameState) (i j : Nat)
    (hact : s.gameActive = true) (hflip : s.flipped = []) (hij : i ≠ j)
    (hmi : some i ∉ s.matched) (hmj : some j ∉ s.matched)
    (heq : s.cards[i]? = s.cards[j]?) :
    (checkMatch (cardClick j (cardClick i s))).matched = s.matched ++ [some i, some j] ∧
    (checkMatch (cardClick j (cardClick i s))).moves = s.moves + 1 ∧
    (checkMatch (cardClick j (cardClick i s))).flipped = [] ∧
    (checkMatch (cardClick j (cardClick i s))).cards = s.cards ∧
    (checkMatch (cardClick j (cardClick i s))).difficulty = s.difficulty ∧
    (s.matched.length + 2 ≠ s.cards.length →
      (checkMatch (cardClick j (cardClick i s))).gameActive = true) ∧
    (s.matched.length + 2 = s.cards.length →
      (checkMatch (cardClick j (cardClick i s))).gameActive = false ∧
      (checkMatch (cardClick j (cardClick i s))).popupActive = true) := by
  have e2 := two_clicks s i j hact hflip hij hmi hmj
  have hm : (resolveFlipped (cardClick j (cardClick i s))).matched =
      s.matched ++ [some i, some j] := by
    rw [resolveFlipped_matched]
    simp only [e2, cardAt]
    simp [renderBoard, heq]
  have hc : (resolveFlipped (cardClick j (cardClick i s))).cards = s.cards := by simp
  refine ⟨by rw [checkMatch_matched, hm], by simp [e2], by simp, by simp, by simp, ?_, ?_⟩
  · intro hne
    unfold checkMatch
    simp only []
    rw [if_neg (by rw [hm, hc]; simpa using hne)]
    simp
  · intro he
    unfold checkMatch
    simp only []
    rw [if_pos (by rw [hm, hc]; simpa using he)]
    simp

theorem run_cons (s : GameState) (e : Event) (evs : List Event) :
    run s (e :: evs) = run (step s e) evs := rfl

theorem flipPairs_cons (p : Nat × Nat) (ps : List (Nat × Nat)) :
    flipPairs (p :: ps) =
      Event.cardClick p.1 :: Event.cardClick p.2 :: Event.checkMatch :: flipPairs ps := by
  simp [flipPairs]

theorem pairIndices_cons (p : Nat × Nat) (ps : List (Nat × Nat)) :
    pairIndices (p :: ps) = p.1 :: p.2 :: pairIndices ps := by
  simp [pairIndices]

/-- A run in which every pair turned is a matching pair of cards not turned before. -/
theorem perfect_run (ps : List (Nat × Nat)) : ∀ (s : GameState),
    s.gameActive = true → s.flipped = [] → (pairIndices ps).Nodup →
    MatchingPairs s.cards ps →
    (∀ k ∈ pairIndices ps, some k ∉ s.matched) →
    s.matched.length + 2 * ps.length ≤ s.cards.length →
    (run s (flipPairs ps)).matched = s.matched ++ (pairIndices ps).map some ∧
    (run s (flipPairs ps)).moves = s.moves + ps.length ∧
    (run s (flipPairs ps)).flipped = [] ∧
    (run s (flipPairs ps)).cards = s.cards ∧
    (run s (flipPairs ps)).difficulty = s.difficulty ∧
    (ps ≠ [] → s.matched.length + 2 * ps.length = s.cards.length →
      (run s (flipPairs ps)).gameActive = false ∧
      (run s (flipPairs ps)).popupActive = true) := by
  induction ps with
  | nil =>
    intro s _ hflip _ _ _ _
    refine ⟨by simp [pairIndices, flipPairs, run], by simp [flipPairs, run], ?_, rfl, rfl, ?_⟩
    · simpa [flipPairs, run] using hflip
    · intro h; exact absurd rfl h
  | cons p ps ih =>
    intro s hact hflip hnd hmatch hfresh hlen
    obtain ⟨i, j⟩ := p
    rw [pairIndices_cons] at hnd hfresh
    simp only [List.nodup_cons, List.mem_cons, not_or] at hnd
    obtain ⟨⟨hij, hi_rest⟩, hj_rest, hnd'⟩ := hnd
    obtain ⟨-, -, heq⟩ := hmatch (i, j) (by simp)
    have hmi : some i ∉ s.matched := hfresh i (by simp)
    have hmj : some j ∉ s.matched := hfresh j (by simp)
    obtain ⟨f1, f2, f3, f4, f5, f6, f7⟩ := flip_pair s i j hact hflip hij hmi hmj heq
    rw [flipPairs_cons, run_cons, run_cons, run_cons]
    show _ ∧ _ ∧ _ ∧ _ ∧ _ ∧ _
    simp only [step]
    rw [List.length_cons] at hlen
    cases ps with
    | nil =>
      simp only [flipPairs, List.flatMap_nil, run, List.foldl_nil, pairIndices_cons, pairIndices,
        List.map_cons, List.map_nil, List.length_cons, List.length_nil]
      refine ⟨f1, by rw [f2], f3, f4, f5, ?_⟩
      intro _ he
      exact f7 (by omega)
    | cons q qs =>
      have hlt : s.matched.length + 2 ≠ s.cards.length := by
        simp only [List.length_cons] at hlen; omega
      have ih' := ih (checkMatch (cardClick j (cardClick i s))) (f6 hlt) f3 hnd'
        (by rw [f4]; exact fun p hp => hmatch p (List.mem_cons_of_mem _ hp))
        (by
          intro k hk
          rw [f1]
          simp only [List.mem_append, List.mem_cons, List.mem_singleton, Option.some.injEq,
            List.mem_nil_iff, or_false, not_or]
          refine ⟨hfresh k (by simp [hk]), ?_, ?_⟩
          · rintro rfl; exact hi_rest hk
          · rintro rfl; exact hj_rest hk)
        (by rw [f1, f4]; simp only [List.length_append, List.length_cons, List.length_nil] at *; omega)
      obtain ⟨g1, g2, g3, g4, g5, g6⟩ := ih'
      refine ⟨?_, ?_, g3, by rw [g4, f4], by rw [g5, f5], ?_⟩
      · rw [g1, f1, pairIndices_cons (i, j)]; simp
      · rw [g2, f2]; simp only [List.length_cons]; omega
      · intro _ he
        apply g6 (by simp)
        rw [f1, f4]
        simp only [List.length_append, List.length_cons, List.length_nil] at *
        omega


/-- C13: in every state reached from `startGame` by clicks on positions of the
deck, `checkMatch` taken when two cards are face up and timer ticks,
`matched.length` is at most `2 * moves`; so when `matched` has the length of
the deck, `moves` is at least half the deck: at least 8 for difficulty 4 and
at least 18 for difficulty 6.  And when, after `startGame`, the player turns
pairs of cards that each carry the same symbol, every card once, until the
deck is used up, the game is complete (`matched` has the length of the deck,
no card is face up, `gameActive` is false, the popup is shown) with `moves`
equal to the number of pairs: 8 for difficulty 4, 18 for difficulty 6. -/
theorem moves_and_pairs (s : GameState) (h : Play s)
    (sh : Shuffle) (d : Nat) (s0 : GameState) (ps : List (Nat × Nat))
    (hnd : (pairIndices ps).Nodup)
    (hmatch : MatchingPairs (startGame sh d s0).cards ps)
    (hcover : 2 * ps.length = (startGame sh d s0).cards.length) :
    (s.matched.length ≤ 2 * s.moves ∧
      (s.matched.length = s.cards.length →
        s.cards.length ≤ 2 * s.moves ∧
        (s.difficulty = some 4 → 8 ≤ s.moves) ∧
        (s.difficulty = some 6 → 18 ≤ s.moves))) ∧
    ((run (startGame sh d s0) (flipPairs ps)).matched.length =
        (run (startGame sh d s0) (flipPairs ps)).cards.length ∧
      (run (startGame sh d s0) (flipPairs ps)).flipped = [] ∧
      (run (startGame sh d s0) (flipPairs ps)).gameActive = false ∧
      (run (startGame sh d s0) (flipPairs ps)).popupActive = true ∧
      (run (startGame sh d s0) (flipPairs ps)).moves = ps.length ∧
      (d = 4 → (run (startGame sh d s0) (flipPairs ps)).moves = 8) ∧
      (d = 6 → (run (startGame sh d s0) (flipPairs ps)).moves = 18)) := by
  constructor
  · have hm : s.matched.length ≤ 2 * s.moves := by
      have := MovesInv_play h
      unfold MovesInv at this
      omega
    refine ⟨hm, fun hfull => ⟨by omega, ?_, ?_⟩⟩
    · intro h4
      rcases DeckInv_play h with ⟨-, hc⟩ | ⟨hd, -⟩
      · omega
      · exact absurd h4 hd
    · intro h6
      rcases DeckInv_play h with ⟨hd, -⟩ | ⟨-, hc⟩
      · rw [h6] at hd; exact absurd hd (by decide)
      · omega
  · have hf := startGame_fields sh d s0
    have hdeck := startGame_deckInv sh d s0
    have hdiff : (startGame sh d s0).difficulty = some d := by
      simp [startGame, startTimer, renderBoard]
    have hne : ps ≠ [] := by
      rintro rfl
      rcases hdeck with ⟨-, hc⟩ | ⟨-, hc⟩ <;> simp [hc] at hcover
    obtain ⟨g1, g2, g3, g4, -, g6⟩ := perfect_run ps (startGame sh d s0) hf.2.2.2.2 hf.1 hnd
      hmatch (by rw [hf.2.1]; simp) (by rw [hf.2.1]; simp; omega)
    obtain ⟨g7, g8⟩ := g6 hne (by rw [hf.2.1]; simp; omega)
    have hmoves : (run (startGame sh d s0) (flipPairs ps)).moves = ps.length := by
      rw [g2, hf.2.2.1]; simp
    refine ⟨?_, g3, g7, g8, hmoves, ?_, ?_⟩
    · rw [g1, g4, hf.2.1]
      have hl : (pairIndices ps).length = 2 * ps.length := by
        clear hnd hmatch hcover hne g1 g2 g3 g4 g7 g8 hmoves g6
        induction ps with
        | nil => rfl
        | cons p ps ih => rw [pairIndices_cons]; simp [ih]; omega
      simp [hl, hcover]
    · intro h4
      rw [hmoves]
      rcases hdeck with ⟨-, hc⟩ | ⟨hd, -⟩
      · omega
      · rw [hdiff, h4] at hd; exact absurd rfl hd
    · intro h6
      rw [hmoves]
      rcases hdeck with ⟨hd, -⟩ | ⟨-, hc⟩
      · rw [hdiff, h6] at hd; exact absurd hd (by decide)
      · omega

theorem moves_and_pairs_witness :
    (Play demoTwoFlipped ∧ (pairIndices demoPairs).Nodup ∧
      MatchingPairs (startGame Shuffle.id 4 pageLoad).cards demoPairs ∧
      2 * demoPairs.length = (startGame Shuffle.id 4 pageLoad).cards.length) ∧
    ((demoTwoFlipped.matched.length ≤ 2 * demoTwoFlipped.moves ∧
      (demoTwoFlipped.matched.length = demoTwoFlipped.cards.length →
        demoTwoFlipped.cards.length ≤ 2 * demoTwoFlipped.moves ∧
        (demoTwoFlipped.difficulty = some 4 → 8 ≤ demoTwoFlipped.moves) ∧
        (demoTwoFlipped.difficulty = some 6 → 18 ≤ demoTwoFlipped.moves))) ∧
    ((run (startGame Shuffle.id 4 pageLoad) (flipPairs demoPairs)).matched.length =
        (run (startGame Shuffle.id 4 pageLoad) (flipPairs demoPairs)).cards.length ∧
      (run (startGame Shuffle.id 4 pageLoad) (flipPairs demoPairs)).flipped = [] ∧
      (run (startGame Shuffle.id 4 pageLoad) (flipPairs demoPairs)).gameActive = false ∧
      (run (startGame Shuffle.id 4 pageLoad) (flipPairs demoPairs)).popupActive = true ∧
      (run (startGame Shuffle.id 4 pageLoad) (flipPairs demoPairs)).moves = demoPairs.length ∧
      (4 = 4 → (run (startGame Shuffle.id 4 pageLoad) (flipPairs demoPairs)).moves = 8) ∧
      (4 = 6 → (run (startGame Shuffle.id 4 pageLoad) (flipPairs demoPairs)).moves = 18))) :=
  ⟨⟨demoTwoFlipped_play, by decide, by unfold MatchingPairs; decide, by decide⟩,
    moves_and_pairs demoTwoFlipped demoTwoFlipped_play Shuffle.id 4 pageLoad demoPairs
      (by decide) (by unfold MatchingPairs; decide) (by decide)⟩

/-! ## The resolution callback after the session was left or replaced -/

theorem quiet_run (ks : List (Option Nat)) : ∀ (u : GameState), u.gameActive = false →
    (run u (quietEvents ks)).gameActive = false ∧
    (run u (quietEvents ks)).flipped = u.flipped ∧
    (run u (quietEvents ks)).matched = u.matched ∧
    (run u (quietEvents ks)).cards = u.cards ∧
    (run u (quietEvents ks)).moves = u.moves ∧
    (run u (quietEvents ks)).intervals = u.intervals ∧
    (run u (quietEvents ks)).popupActive = u.popupActive := by
  induction ks with
  | nil => intro u hu; exact ⟨hu, rfl, rfl, rfl, rfl, rfl, rfl⟩
  | cons k ks ih =>
    intro u hu
    cases k with
    | none =>
      rw [show quietEvents (none :: ks) = Event.tick :: quietEvents ks from rfl, run_cons]
      by_cases hiv : u.intervals = []
      · rw [show step u Event.tick = u by simp [step, hiv]]
        exact ih u hu
      · rw [show step u Event.tick = timerCallback u by simp [step, hiv]]
        exact ih (timerCallback u) hu
    | some index =>
      rw [show quietEvents (some index :: ks) = Event.cardClick index :: quietEvents ks from rfl,
        run_cons]
      rw [show step u (Event.cardClick index) = u from cardClick_rejected u index (Or.inl hu)]
      exact ih u hu

theorem returnToMenu_handle (s : GameState) (k : Nat) (hk : s.timerInterval = some k) :
    k ∉ (returnToMenu s).intervals := by
  rw [returnToMenu_intervals s k hk]
  simp

theorem checkMatch_outcome (u : GameState) :
    ((resolveFlipped u).matched.length ≠ (resolveFlipped u).cards.length →
      (checkMatch u).gameActive = true) ∧
    ((resolveFlipped u).matched.length = (resolveFlipped u).cards.length →
      (checkMatch u).gameActive = false ∧ (checkMatch u).popupActive = true) := by
  constructor
  · intro hne
    unfold checkMatch
    simp only []
    rw [if_neg hne]
    simp
  · intro he
    unfold checkMatch
    simp only []
    rw [if_pos he]
    simp

/-- C12, as the code has it: after `returnToMenu`, `gameActive` is false, the
interval whose handle `timerInterval` holds is not running, and every
`cardClick` returns the state unchanged; through any clicks and timer ticks
that follow, `gameActive` stays false and `flipped`, `matched`, `cards`,
`moves` and the popup stay as they are.  A `checkMatch` callback that runs
afterwards is not held back: it sets `gameActive` to true, unless `matched`
then has the length of the deck, in which case it runs `endGame` and shows the
completion popup. -/
theorem returnToMenu_until_callback (s : GameState) (ks : List (Option Nat)) :
    (returnToMenu s).gameActive = false ∧
    (∀ k, s.timerInterval = some k → k ∉ (returnToMenu s).intervals) ∧
    (∀ index, cardClick index (returnToMenu s) = returnToMenu s) ∧
    ((run (returnToMenu s) (quietEvents ks)).gameActive = false ∧
      (run (returnToMenu s) (quietEvents ks)).flipped = (returnToMenu s).flipped ∧
      (run (returnToMenu s) (quietEvents ks)).matched = (returnToMenu s).matched ∧
      (run (returnToMenu s) (quietEvents ks)).cards = (returnToMenu s).cards ∧
      (run (returnToMenu s) (quietEvents ks)).moves = (returnToMenu s).moves ∧
      (run (returnToMenu s) (quietEvents ks)).intervals = (returnToMenu s).intervals ∧
      (run (returnToMenu s) (quietEvents ks)).popupActive = (returnToMenu s).popupActive) ∧
    ((resolveFlipped (run (returnToMenu s) (quietEvents ks))).matched.length ≠
        (resolveFlipped (run (returnToMenu s) (quietEvents ks))).cards.length →
      (checkMatch (run (returnToMenu s) (quietEvents ks))).gameActive = true) ∧
    ((resolveFlipped (run (returnToMenu s) (quietEvents ks))).matched.length =
        (resolveFlipped (run (returnToMenu s) (quietEvents ks))).cards.length →
      (checkMatch (run (returnToMenu s) (quietEvents ks))).gameActive = false ∧
      (checkMatch (run (returnToMenu s) (quietEvents ks))).popupActive = true) := by
  have hoff : (returnToMenu s).gameActive = false := (returnToMenu_fields s).2.2.2.2.1
  exact ⟨hoff, fun k hk => returnToMenu_handle s k hk,
    fun index => cardClick_rejected _ index (Or.inl hoff),
    quiet_run ks (returnToMenu s) hoff,
    (checkMatch_outcome _).1, (checkMatch_outcome _).2⟩

/-- C12, as stated, fails: after the button presses `menuMidResolution` the
session is inactive, and the callback scheduled before `returnToMenu` sets
`gameActive` to true, so that a click on card 2 changes the state; after the
button presses `menuBeforeLastPair` the popup is hidden and the callback shows it. -/
theorem stale_callback_reactivates :
    (run pageLoad menuMidResolution).gameActive = false ∧
    (run pageLoad menuMidResolution).scheduledChecks = 1 ∧
    (step (run pageLoad menuMidResolution) Event.checkMatch).gameActive = true ∧
    cardClick 2 (step (run pageLoad menuMidResolution) Event.checkMatch) ≠
      step (run pageLoad menuMidResolution) Event.checkMatch ∧
    (run pageLoad menuBeforeLastPair).popupActive = false ∧
    (step (run pageLoad menuBeforeLastPair) Event.checkMatch).popupActive = true := by
  decide!

/-! ## `checkMatch` with fewer than two cards face up -/

/-- With no card face up `checkMatch` compares `undefined` with `undefined` and
pushes both. -/
theorem checkMatch_no_flipped (s : GameState) (h : s.flipped = []) :
    (checkMatch s).matched = s.matched ++ [none, none] := by
  rw [checkMatch_matched, resolveFlipped_matched]
  simp [h, cardAt]

/-- With one card of the deck face up `checkMatch` pushes nothing. -/
theorem checkMatch_one_flipped (s : GameState) (i : Nat) (h : s.flipped = [i])
    (hi : i < s.cards.length) : (checkMatch s).matched = s.matched := by
  rw [checkMatch_matched, resolveFlipped_matched]
  simp [h, cardAt, List.getElem?_eq_getElem hi]

/-- C15, evaluated at the button presses `newGameMidResolution`: the new
session has no card face up and an empty `matched` while one callback is
outstanding; when it runs, `matched` becomes two `undefined` entries; and after
seven pairs of the new game `endGame` runs with `moves = 7` although cards 7
and 15 are not matched. -/
theorem stale_callback_corrupts :
    (run pageLoad newGameMidResolution).flipped = [] ∧
    (run pageLoad newGameMidResolution).matched = [] ∧
    (run pageLoad newGameMidResolution).scheduledChecks = 1 ∧
    (step (run pageLoad newGameMidResolution) Event.checkMatch).matched = [none, none] ∧
    (run pageLoad (newGameMidResolution ++ [Event.checkMatch] ++
        matchPairs (List.range 7))).popupActive = true ∧
    (run pageLoad (newGameMidResolution ++ [Event.checkMatch] ++
        matchPairs (List.range 7))).gameActive = false ∧
    (run pageLoad (newGameMidResolution ++ [Event.checkMatch] ++
        matchPairs (List.range 7))).moves = 7 ∧
    some 7 ∉ (run pageLoad (newGameMidResolution ++ [Event.checkMatch] ++
        matchPairs (List.range 7))).matched ∧
    some 15 ∉ (run pageLoad (newGameMidResolution ++ [Event.checkMatch] ++
        matchPairs (List.range 7))).matched := by
  decide!

/-! ## The time format read back -/

theorem digitChar_digit : ∀ k, k < 10 →
    (Nat.digitChar k).isDigit = true ∧ (Nat.digitChar k).toNat - 48 = k := by
  decide

theorem foldl_digits_append (pre : List Char) (c : Char) :
    digitsValue (pre ++ [c]) = 10 * digitsValue pre + (c.toNat - 48) := by
  simp [digitsValue, List.foldl_append]

/-- The digits that `Nat.toDigitsCore` puts in front of its accumulator. -/
theorem toDigitsCore_spec (fuel : Nat) : ∀ (n : Nat) (ds : List Char), n < fuel →
    ∃ pre, Nat.toDigitsCore 10 fuel n ds = pre ++ ds ∧
      (∀ c ∈ pre, c.isDigit = true) ∧ digitsValue pre = n := by
  induction fuel with
  | zero => intro n ds h; omega
  | succ fuel ih =>
    intro n ds h
    have hd := digitChar_digit (n % 10) (Nat.mod_lt _ (by decide))
    unfold Nat.toDigitsCore
    simp only []
    by_cases h0 : n / 10 = 0
    · rw [if_pos h0]
      refine ⟨[Nat.digitChar (n % 10)], rfl, ?_, ?_⟩
      · intro c hc
        rw [List.mem_singleton.1 hc]; exact hd.1
      · have : digitsValue [Nat.digitChar (n % 10)] = (Nat.digitChar (n % 10)).toNat - 48 := by
          simp [digitsValue]
        rw [this, hd.2]
        omega
    · rw [if_neg h0]
      obtain ⟨pre, e, hdig, hval⟩ := ih (n / 10) (Nat.digitChar (n % 10) :: ds) (by omega)
      refine ⟨pre ++ [Nat.digitChar (n % 10)], by rw [e]; simp, ?_, ?_⟩
      · intro c hc
        rcases List.mem_append.1 hc with hc | hc
        · exact hdig c hc
        · rw [List.mem_singleton.1 hc]; exact hd.1
      · rw [foldl_digits_append, hval, hd.2]
        omega

theorem repr_spec (n : Nat) :
    (∀ c ∈ (Nat.repr n).data, c.isDigit = true) ∧ digitsValue (Nat.repr n).data = n := by
  obtain ⟨pre, e, hdig, hval⟩ := toDigitsCore_spec (n + 1) n [] (by omega)
  have hdata : (Nat.repr n).data = pre := by
    show (Nat.toDigits 10 n) = pre
    unfold Nat.toDigits
    rw [e]; simp
  rw [hdata]
  exact ⟨hdig, hval⟩

theorem zeroPadded_data (w : Nat) (str : String) :
    (zeroPadded w str).data = List.replicate (w - str.length) '0' ++ str.data := by
  unfold zeroPadded
  rw [String.data_append]

theorem digitsValue_zeros (k : Nat) (l : List Char) :
    digitsValue (List.replicate k '0' ++ l) = digitsValue l := by
  unfold digitsValue
  rw [List.foldl_append]
  congr 1
  induction k with
  | zero => rfl
  | succ k ih => rw [List.replicate_succ, List.foldl_cons]; exact ih

theorem zeroPadded_spec (w n : Nat) :
    AllDigits (zeroPadded w (Nat.repr n)) ∧
    digitsValue (zeroPadded w (Nat.repr n)).data = n := by
  obtain ⟨hdig, hval⟩ := repr_spec n
  constructor
  · intro c hc
    rw [zeroPadded_data] at hc
    rcases List.mem_append.1 hc with hc | hc
    · rw [(List.mem_replicate.1 hc).2]; decide
    · exact hdig c hc
  · rw [zeroPadded_data, digitsValue_zeros, hval]

theorem split_at_colon (m r : List Char) (h : ∀ c ∈ m, c.isDigit = true) :
    (m ++ ':' :: r).takeWhile (fun c => c != ':') = m ∧
    (m ++ ':' :: r).dropWhile (fun c => c != ':') = ':' :: r := by
  induction m with
  | nil => simp
  | cons a m ih =>
    have ha : (a != ':') = true := by
      have hdig := h a (by simp)
      rw [bne_iff_ne]
      rintro rfl
      exact absurd hdig (by decide)
    obtain ⟨i1, i2⟩ := ih (fun c hc => h c (List.mem_cons_of_mem _ hc))
    constructor
    · rw [List.cons_append, List.takeWhile_cons, if_pos ha, i1]
    · rw [List.cons_append, List.dropWhile_cons, if_pos ha, i2]

theorem timeString_data (s : Nat) :
    (timeString s).data =
      (zeroPadded 2 (Nat.repr (s / 60))).data ++ ':' :: (zeroPadded 2 (Nat.repr (s % 60))).data := by
  rw [timeString_eq]
  unfold minutesSeconds
  rw [String.data_append, String.data_append]
  simp

theorem timeString_parts (s : Nat) :
    beforeColon (timeString s) = zeroPadded 2 (Nat.repr (s / 60)) ∧
    afterColon (timeString s) = zeroPadded 2 (Nat.repr (s % 60)) := by
  obtain ⟨h1, h2⟩ := split_at_colon (zeroPadded 2 (Nat.repr (s / 60))).data
    (zeroPadded 2 (Nat.repr (s % 60))).data (zeroPadded_spec 2 (s / 60)).1
  unfold beforeColon afterColon
  rw [timeString_data, h1, h2]
  exact ⟨rfl, rfl⟩

/-- C16: two elapsed times with the same formatted text are equal; the text
is the part before its colon, the colon, and the part after it; the part after
the colon is exactly two decimal digits that write `s % 60`, a number below
60; the part before it is at least two decimal digits that write `s / 60`, and
exactly two when `s < 6000`. -/
theorem timeString_injective (s t : Nat) :
    (timeString s = timeString t → s = t) ∧
    timeString s = beforeColon (timeString s) ++ ":" ++ afterColon (timeString s) ∧
    ((afterColon (timeString s)).length = 2 ∧ AllDigits (afterColon (timeString s)) ∧
      digitsValue (afterColon (timeString s)).data = s % 60 ∧
      digitsValue (afterColon (timeString s)).data < 60) ∧
    (2 ≤ (beforeColon (timeString s)).length ∧ AllDigits (beforeColon (timeString s)) ∧
      digitsValue (beforeColon (timeString s)).data = s / 60 ∧
      (s < 6000 → (beforeColon (timeString s)).length = 2)) := by
  obtain ⟨b, a⟩ := timeString_parts s
  refine ⟨?_, ?_, ⟨?_, ?_, ?_, ?_⟩, ⟨?_, ?_, ?_, ?_⟩⟩
  · intro h
    obtain ⟨b', a'⟩ := timeString_parts t
    have hb : digitsValue (beforeColon (timeString s)).data =
        digitsValue (beforeColon (timeString t)).data := by rw [h]
    have ha : digitsValue (afterColon (timeString s)).data =
        digitsValue (afterColon (timeString t)).data := by rw [h]
    rw [b, b', (zeroPadded_spec 2 _).2, (zeroPadded_spec 2 _).2] at hb
    rw [a, a', (zeroPadded_spec 2 _).2, (zeroPadded_spec 2 _).2] at ha
    omega
  · rw [b, a, timeString_eq]; rfl
  · rw [a, zeroPadded_length]
    have := seconds_two_chars (s % 60) (Nat.mod_lt _ (by decide))
    omega
  · rw [a]; exact (zeroPadded_spec 2 _).1
  · rw [a]; exact (zeroPadded_spec 2 _).2
  · rw [a, (zeroPadded_spec 2 _).2]; exact Nat.mod_lt _ (by decide)
  · rw [b, zeroPadded_length]; omega
  · rw [b]; exact (zeroPadded_spec 2 _).1
  · rw [b]; exact (zeroPadded_spec 2 _).2
  · intro hs
    rw [b, zeroPadded_length]
    have := Nat.repr_length (s / 60) 2 (by decide) (by omega)
    omega

end GAMEtg
